import Mathlib

/-!
The VA API video output module (`libvo/vo_vaapi.c`): surface pool and output ring.

A shallow embedding of the surface-pool part of `vo_vaapi.c`:

* the module's global variables become the fields of `VaState`;
* every call into libva, the X server or the allocator is answered by an explicit
  reply value passed to the function that makes the call;
* `assert` is modelled by the outcome `abort`, an access outside an array or through a
  null pointer by the outcome `undefined`.

The on-screen-display block of `config_vaapi` only writes the `va_osd_*` variables, which
no function below reads; these variables are not part of `VaState`.
-/

namespace VoVaapi

/-! ## Constants -/

/-- Number of output surfaces (`flip_page` synchronisation points). -/
def MAX_OUTPUT_SURFACES : Nat := 2
/-- Upper bound of the number of video surfaces kept in the free queue. -/
def MAX_VIDEO_SURFACES : Nat := 21
/-- One decode frame, up to 2 references. -/
def NUM_VIDEO_SURFACES_MPEG2 : Nat := 3
/-- One decode frame, up to 2 references. -/
def NUM_VIDEO_SURFACES_MPEG4 : Nat := 3
/-- One decode frame, up to 16 references. -/
def NUM_VIDEO_SURFACES_H264 : Nat := 17
/-- One decode frame, up to 2 references. -/
def NUM_VIDEO_SURFACES_VC1 : Nat := 3

/-- The macro `FFMIN` of libavutil: `((a) > (b) ? (b) : (a))`. -/
def FFMIN (a b : Nat) : Nat := if a > b then b else a

/-! ### Values of `<va/va.h>` (libva) -/

def VA_STATUS_SUCCESS : Int := 0
def VA_INVALID_SURFACE : Nat := 0xffffffff
def VA_RT_FORMAT_YUV420 : Nat := 1

def VAProfileMPEG2Simple : Int := 0
def VAProfileMPEG2Main : Int := 1
def VAProfileMPEG4Simple : Int := 2
def VAProfileMPEG4AdvancedSimple : Int := 3
def VAProfileMPEG4Main : Int := 4
def VAProfileH264Baseline : Int := 5
def VAProfileH264Main : Int := 6
def VAProfileH264High : Int := 7
def VAProfileVC1Simple : Int := 8
def VAProfileVC1Main : Int := 9
def VAProfileVC1Advanced : Int := 10

def VAEntrypointVLD : Int := 1
def VAEntrypointIZZ : Int := 2
def VAEntrypointIDCT : Int := 3
def VAEntrypointMoComp : Int := 4
def VAEntrypointDeblocking : Int := 5

/-- The image-format macros of `libmpcodecs/img_format.h` that `vo_vaapi.c` uses. The header
is not among the sources at hand, so its macros are parameters of the embedding. -/
structure ImgFmt where
  /-- The macro `IMGFMT_VAAPI_CODEC(fmt)`: the codec family of a format. -/
  IMGFMT_VAAPI_CODEC : Nat → Nat
  IMGFMT_VAAPI_CODEC_MPEG2 : Nat
  IMGFMT_VAAPI_CODEC_MPEG4 : Nat
  IMGFMT_VAAPI_CODEC_H264 : Nat
  IMGFMT_VAAPI_CODEC_VC1 : Nat
  IMGFMT_VAAPI_MPEG2 : Nat
  IMGFMT_VAAPI_MPEG2_IDCT : Nat
  IMGFMT_VAAPI_MPEG2_MOCO : Nat
  IMGFMT_VAAPI_MPEG4 : Nat
  IMGFMT_VAAPI_H263 : Nat
  IMGFMT_VAAPI_H264 : Nat
  IMGFMT_VAAPI_WMV3 : Nat
  IMGFMT_VAAPI_VC1 : Nat

/-- The four codec-family labels of the `switch` statements are pairwise different (a C
compiler rejects a `switch` with two equal case labels). -/
def ImgFmt.CodecLabelsDistinct (K : ImgFmt) : Prop :=
  K.IMGFMT_VAAPI_CODEC_MPEG2 ≠ K.IMGFMT_VAAPI_CODEC_MPEG4 ∧
  K.IMGFMT_VAAPI_CODEC_MPEG2 ≠ K.IMGFMT_VAAPI_CODEC_H264 ∧
  K.IMGFMT_VAAPI_CODEC_MPEG2 ≠ K.IMGFMT_VAAPI_CODEC_VC1 ∧
  K.IMGFMT_VAAPI_CODEC_MPEG4 ≠ K.IMGFMT_VAAPI_CODEC_H264 ∧
  K.IMGFMT_VAAPI_CODEC_MPEG4 ≠ K.IMGFMT_VAAPI_CODEC_VC1 ∧
  K.IMGFMT_VAAPI_CODEC_H264 ≠ K.IMGFMT_VAAPI_CODEC_VC1

instance (K : ImgFmt) : Decidable K.CodecLabelsDistinct := by
  unfold ImgFmt.CodecLabelsDistinct; infer_instance

/-- One instance of the parameters, with the values the VA API patch of MPlayer gives the
macros (`IMGFMT_VAAPI` is `0x56410000`, the codec family is the bits `0xF0`). -/
def mplayerImgFmt : ImgFmt where
  IMGFMT_VAAPI_CODEC := fun fmt => fmt &&& 0xF0
  IMGFMT_VAAPI_CODEC_MPEG2 := 0x10
  IMGFMT_VAAPI_CODEC_MPEG4 := 0x20
  IMGFMT_VAAPI_CODEC_H264 := 0x30
  IMGFMT_VAAPI_CODEC_VC1 := 0x40
  IMGFMT_VAAPI_MPEG2 := 0x56410010
  IMGFMT_VAAPI_MPEG2_IDCT := 0x56410011
  IMGFMT_VAAPI_MPEG2_MOCO := 0x56410012
  IMGFMT_VAAPI_MPEG4 := 0x56410020
  IMGFMT_VAAPI_H263 := 0x56410021
  IMGFMT_VAAPI_H264 := 0x56410030
  IMGFMT_VAAPI_WMV3 := 0x56410040
  IMGFMT_VAAPI_VC1 := 0x56410041

/-! ## Data model -/

/-- A `VASurfaceID *` that is not null: the address of element `index` of the surface-id
array allocated at address `base`. -/
structure SurfPtr where
  base : Nat
  index : Nat
deriving DecidableEq, Repr

/-- The array `va_surface_ids`: where it was allocated and the surface ids it holds. -/
structure SurfArray where
  base : Nat
  ids : List Nat
deriving DecidableEq, Repr

/-- The global variables of the module that take part in pool management and output. The
field `dm` is the function-local `static int dm` of `is_direct_mapping`; the fields
`va_config_id` and `va_context_id` are `va_context->config_id` and `va_context->context_id`. -/
structure VaState where
  g_is_paused : Int
  g_output_surfaces : Nat × Nat
  g_output_surface : Fin 2
  va_config_id : Nat
  va_context_id : Nat
  va_profiles : Option (List Int)
  va_num_profiles : Int
  va_entrypoints : Option (List Int)
  va_num_entrypoints : Int
  va_surface_ids : Option SurfArray
  va_num_surfaces : Nat
  va_free_surfaces : Option (List (Option SurfPtr))
  va_free_surfaces_head_index : Nat
  va_free_surfaces_tail_index : Nat
  va_dm : Int
  dm : Int
deriving DecidableEq, Repr

/-- The fields of `mp_image_t` the module reads: the frame number, the private pointer
(the surface handed out for this image last time, or null) and the value of the pointer
`planes[3]`. -/
structure mp_image_t where
  number : Int
  priv : Option SurfPtr
  planes3 : Nat
deriving DecidableEq, Repr

/-- How a call ends: it returns, it is stopped by a failed `assert`, or it runs into an
access whose behaviour C leaves undefined. -/
inductive Outcome (α : Type) where
  | ok : α → Outcome α
  | abort : Outcome α
  | undefined : Outcome α
deriving DecidableEq, Repr

/-- The reply of `vaGetDisplayAttributes` for `VADisplayAttribDirectSurface`. -/
structure AttrReply where
  status : Int
  value : Int
deriving DecidableEq, Repr

/-- The replies of libva and of `calloc` during one `config_vaapi` call. -/
structure ConfigReplies where
  /-- Whether `calloc(max_entrypoints, ..)` returned a non-null pointer. -/
  calloc_entrypoints : Bool
  vaQueryConfigEntrypoints_status : Int
  /-- The contents of `va_entrypoints` after the query. -/
  vaQueryConfigEntrypoints_list : List Int
  vaQueryConfigEntrypoints_num : Int
  vaGetConfigAttributes_status : Int
  vaGetConfigAttributes_value : Nat
  vaCreateConfig_status : Int
  vaCreateConfig_id : Nat
  vaGetDisplayAttributes : AttrReply
  /-- The address `calloc` returned for `va_surface_ids`, `none` for a null pointer. -/
  calloc_surface_ids : Option Nat
  vaCreateSurfaces_status : Int
  /-- The surface id written to element `i` of `va_surface_ids`. -/
  vaCreateSurfaces_id : Nat → Nat
  /-- Whether `calloc` returned a non-null pointer for `va_free_surfaces`. -/
  calloc_free_surfaces : Bool
  /-- The status of `vaCreateSurfaceGLX`; `none` when GLX rendering is compiled out or
  not enabled. -/
  vaCreateSurfaceGLX_status : Option Int
  vaCreateContext_status : Int
  vaCreateContext_id : Nat

/-! ## Capability look-up -/

/-- Function `check_status`: 1 for `VA_STATUS_SUCCESS`, 0 otherwise (the message is not modelled). -/
def check_status (status : Int) : Bool := status == VA_STATUS_SUCCESS

/-- Function `has_profile`: is `profile` among the first `va_num_profiles` entries of `va_profiles`? -/
def has_profile (s : VaState) (profile : Int) : Int :=
  match s.va_profiles with
  | none => 0
  | some ps =>
    if s.va_num_profiles > 0 then
      if (ps.take s.va_num_profiles.toNat).contains profile then 1 else 0
    else 0

def mpeg2_profiles : List Int := [VAProfileMPEG2Main, VAProfileMPEG2Simple]
def mpeg4_profiles : List Int :=
  [VAProfileMPEG4Main, VAProfileMPEG4AdvancedSimple, VAProfileMPEG4Simple]
def h264_profiles : List Int := [VAProfileH264High, VAProfileH264Main, VAProfileH264Baseline]
def wmv3_profiles : List Int := [VAProfileVC1Main, VAProfileVC1Simple]
def vc1_profiles : List Int := [VAProfileVC1Advanced]

/-- The `switch` of `VAProfile_from_imgfmt`: the preference list of a format, `none` for
the null pointer. -/
def profiles_of_imgfmt (K : ImgFmt) (format : Nat) : Option (List Int) :=
  if K.IMGFMT_VAAPI_CODEC format = K.IMGFMT_VAAPI_CODEC_MPEG2 then some mpeg2_profiles
  else if K.IMGFMT_VAAPI_CODEC format = K.IMGFMT_VAAPI_CODEC_MPEG4 then some mpeg4_profiles
  else if K.IMGFMT_VAAPI_CODEC format = K.IMGFMT_VAAPI_CODEC_H264 then some h264_profiles
  else if K.IMGFMT_VAAPI_CODEC format = K.IMGFMT_VAAPI_CODEC_VC1 then
    if format = K.IMGFMT_VAAPI_WMV3 then some wmv3_profiles
    else if format = K.IMGFMT_VAAPI_VC1 then some vc1_profiles
    else none
  else none

/-- Function `VAProfile_from_imgfmt`: the first entry of the preference list that `has_profile`
accepts, or -1. -/
def VAProfile_from_imgfmt (K : ImgFmt) (s : VaState) (format : Nat) : Int :=
  match profiles_of_imgfmt K format with
  | none => -1
  | some profiles =>
    match profiles.find? (fun p => has_profile s p != 0) with
    | some p => p
    | none => -1

/-- Function `has_entrypoint`, on the entry-point array and count given. -/
def has_entrypoint (entrypoints : Option (List Int)) (num : Int) (entrypoint : Int) : Int :=
  match entrypoints with
  | none => 0
  | some es =>
    if num > 0 then
      if (es.take num.toNat).contains entrypoint then 1 else 0
    else 0

/-- The `switch` of `VAEntrypoint_from_imgfmt`: the entry point of a format, 0 if none. -/
def entrypoint_of_imgfmt (K : ImgFmt) (format : Nat) : Int :=
  if format = K.IMGFMT_VAAPI_MPEG2 ∨ format = K.IMGFMT_VAAPI_MPEG4 ∨
      format = K.IMGFMT_VAAPI_H263 ∨ format = K.IMGFMT_VAAPI_H264 ∨
      format = K.IMGFMT_VAAPI_WMV3 ∨ format = K.IMGFMT_VAAPI_VC1 then VAEntrypointVLD
  else if format = K.IMGFMT_VAAPI_MPEG2_IDCT then VAEntrypointIDCT
  else if format = K.IMGFMT_VAAPI_MPEG2_MOCO then VAEntrypointMoComp
  else 0

/-- Function `VAEntrypoint_from_imgfmt`: `has_entrypoint` of the format's entry point, or -1 when
the format has none. -/
def VAEntrypoint_from_imgfmt (K : ImgFmt) (s : VaState) (format : Nat) : Int :=
  let entrypoint := entrypoint_of_imgfmt K format
  if entrypoint ≠ 0 then has_entrypoint s.va_entrypoints s.va_num_entrypoints entrypoint
  else -1

/-! ## Mapping policy -/

/-- Function `is_direct_mapping_init`: the `dm` setting when it is below 2, else the negation of
the queried attribute value, and 0 when the query fails. -/
def is_direct_mapping_init (va_dm : Int) (a : AttrReply) : Int :=
  if va_dm < 2 then va_dm
  else if a.status = VA_STATUS_SUCCESS then (if a.value = 0 then 1 else 0)
  else 0

/-- Function `is_direct_mapping`: computes the policy when the cached `dm` is negative, and returns
the cached value. -/
def is_direct_mapping (s : VaState) (a : AttrReply) : Int × VaState :=
  if s.dm < 0 then
    let d := is_direct_mapping_init s.va_dm a
    (d, { s with dm := d })
  else (s.dm, s)

/-- Function `int_012`, the test the option parser applies to the `dm` sub-option: the
setting is 0, 1 or 2. -/
def int_012 (n : Int) : Bool := decide (n ≥ 0) && decide (n ≤ 2)

/-- Whether `is_direct_mapping_init` reaches its `vaGetDisplayAttributes` call: it
returns before the call when the `dm` setting is below 2. -/
def is_direct_mapping_init_queries (va_dm : Int) : Bool := !decide (va_dm < 2)

/-- The number of `vaGetDisplayAttributes` calls one `is_direct_mapping` call makes:
`is_direct_mapping_init` runs only when the cached `dm` is negative. -/
def is_direct_mapping_queries (s : VaState) : Nat :=
  if s.dm < 0 then (if is_direct_mapping_init_queries s.va_dm then 1 else 0) else 0

/-- Successive `is_direct_mapping` calls. Each call comes with the `dm` setting in force
when it is made and the reply the service would give; the result is the list of values
returned, the number of queries made to the service, and the final state. -/
def is_direct_mapping_calls (s : VaState) : List (Int × AttrReply) → List Int × Nat × VaState
  | [] => ([], 0, s)
  | (va_dm, a) :: rest =>
    let s1 := { s with va_dm := va_dm }
    let ds := is_direct_mapping s1 a
    let rs := is_direct_mapping_calls ds.2 rest
    (ds.1 :: rs.1, is_direct_mapping_queries s1 + rs.2.1, rs.2.2)

/-! ## Configuration -/

/-- The `switch` of `config_vaapi` that chooses the number of video surfaces of a codec
family; 0 for a family that has no case. -/
def num_video_surfaces (K : ImgFmt) (format : Nat) : Nat :=
  if K.IMGFMT_VAAPI_CODEC format = K.IMGFMT_VAAPI_CODEC_MPEG2 then NUM_VIDEO_SURFACES_MPEG2
  else if K.IMGFMT_VAAPI_CODEC format = K.IMGFMT_VAAPI_CODEC_MPEG4 then NUM_VIDEO_SURFACES_MPEG4
  else if K.IMGFMT_VAAPI_CODEC format = K.IMGFMT_VAAPI_CODEC_H264 then NUM_VIDEO_SURFACES_H264
  else if K.IMGFMT_VAAPI_CODEC format = K.IMGFMT_VAAPI_CODEC_VC1 then NUM_VIDEO_SURFACES_VC1
  else 0

/-- The last part of `config_vaapi`, from the allocation of `va_surface_ids` on. The state
given already holds the final `va_num_surfaces`. -/
def config_vaapi_surfaces (r : ConfigReplies) (s : VaState) : Int × VaState :=
  match r.calloc_surface_ids with
  | none => (-1, { s with va_surface_ids := none })
  | some base =>
    let ids := (List.range s.va_num_surfaces).map r.vaCreateSurfaces_id
    let s := { s with va_surface_ids := some ⟨base, ids⟩ }
    if !check_status r.vaCreateSurfaces_status then (-1, s)
    else if !r.calloc_free_surfaces then (-1, { s with va_free_surfaces := none })
    else
      let free := (List.range s.va_num_surfaces).map fun i => some (SurfPtr.mk base i)
      let s := { s with va_free_surfaces := some free }
      if r.vaCreateSurfaceGLX_status.any (fun st => !check_status st) then (-1, s)
      else
        let s := { s with va_context_id := r.vaCreateContext_id }
        if !check_status r.vaCreateContext_status then (-1, s)
        else (0, { s with g_output_surface := 0,
                          g_output_surfaces := (VA_INVALID_SURFACE, VA_INVALID_SURFACE) })

/-- The part of `config_vaapi` under "Create video surfaces": the surface count of the
codec family, doubled and clamped when the mapping is not direct; then the allocation. -/
def config_vaapi_sizing (K : ImgFmt) (r : ConfigReplies) (format : Nat) (s : VaState) :
    Int × VaState :=
  let s := { s with va_num_surfaces := num_video_surfaces K format }
  if s.va_num_surfaces = 0 then (-1, s)
  else
    let ds := is_direct_mapping s r.vaGetDisplayAttributes
    let s := ds.2
    let n := if ds.1 = 0 then FFMIN (2 * s.va_num_surfaces) MAX_VIDEO_SURFACES
      else s.va_num_surfaces
    config_vaapi_surfaces r { s with va_num_surfaces := n }

/-- Function `config_vaapi`: the return value and the state it leaves. The image size is passed on
to libva only and is not a parameter here. -/
def config_vaapi (K : ImgFmt) (r : ConfigReplies) (format : Nat) (s : VaState) :
    Int × VaState :=
  -- Check profile
  let profile := VAProfile_from_imgfmt K s format
  if profile < 0 then (-1, s)
  -- Check entry-point (only VLD for now)
  else if !r.calloc_entrypoints then (-1, { s with va_entrypoints := none })
  else
    let s := { s with va_entrypoints := some r.vaQueryConfigEntrypoints_list,
                      va_num_entrypoints := r.vaQueryConfigEntrypoints_num }
    if !check_status r.vaQueryConfigEntrypoints_status then (-1, s)
    else
      let entrypoint := VAEntrypoint_from_imgfmt K s format
      if entrypoint ≠ VAEntrypointVLD then (-1, s)
      -- Check chroma format (only 4:2:0 for now)
      else if !check_status r.vaGetConfigAttributes_status then (-1, s)
      else if r.vaGetConfigAttributes_value &&& VA_RT_FORMAT_YUV420 = 0 then (-1, s)
      else
        -- Create a configuration for the decode pipeline
        let s := { s with va_config_id := r.vaCreateConfig_id }
        if !check_status r.vaCreateConfig_status then (-1, s)
        else
          config_vaapi_sizing K r format s

/-! ## Output ring -/

/-- The slot of `g_output_surfaces` at an index. -/
def output_slot (ring : Nat × Nat) (i : Fin 2) : Nat := if i = 0 then ring.1 else ring.2

/-- Assignment to the slot of `g_output_surfaces` at an index. -/
def set_output_slot (ring : Nat × Nat) (i : Fin 2) (v : Nat) : Nat × Nat :=
  if i = 0 then (v, ring.2) else (ring.1, v)

/-- Function `put_surface`: the surfaces handed to the display (`vaPutSurface`, or the GLX copy
or binding), none for `VA_INVALID_SURFACE`. With GLX, `put_surface_glx` stores the
surface into the slot under the cursor, which its callers have just read it from. -/
def put_surface (surface : Nat) : List Nat :=
  if surface = VA_INVALID_SURFACE then [] else [surface]

/-- Function `flip_page`: the surfaces presented and the state after the call. -/
def flip_page (s : VaState) : List Nat × VaState :=
  let surface := output_slot s.g_output_surfaces s.g_output_surface
  let shown := if surface ≠ VA_INVALID_SURFACE then put_surface surface else []
  let next : Fin 2 :=
    ⟨(s.g_output_surface.val + 1) % MAX_OUTPUT_SURFACES, Nat.mod_lt _ (by decide)⟩
  (shown, { s with g_output_surface := next })

/-- The surface `draw_image` takes from an image: `(uintptr_t)mpi->planes[3]`
converted to `VASurfaceID`, an unsigned integer of 32 bits. -/
def image_surface (mpi : mp_image_t) : Nat := mpi.planes3 % 2 ^ 32

/-- Function `draw_image`: stores the surface id taken from `planes[3]` into the slot under
the cursor (the statistics it may gather are not modelled). -/
def draw_image (s : VaState) (mpi : mp_image_t) : VaState :=
  let ring := set_output_slot s.g_output_surfaces s.g_output_surface (image_surface mpi)
  { s with g_output_surfaces := ring }

/-! ## Window events and reconfiguration -/

/-- Function `resize`: computes the output rectangle and clears the window (not
modelled), then calls `flip_page`. -/
def resize (s : VaState) : List Nat × VaState := flip_page s

/-- The two bits of the value of `vo_x11_check_events` that `check_events` tests:
`VO_EVENT_RESIZE` and `VO_EVENT_EXPOSE`. -/
structure x11_events where
  resize : Bool
  expose : Bool
deriving DecidableEq, Repr

/-- Function `check_events`: the surfaces presented and the state after the call. A
resize event runs `resize`; an expose or resize event while paused presents the slot of
`g_output_surfaces` under the cursor. -/
def check_events (s : VaState) (events : x11_events) : List Nat × VaState :=
  let r := if events.resize then resize s else ([], s)
  let s := r.2
  let shown :=
    if (events.expose || events.resize) && decide (s.g_is_paused ≠ 0) then
      let surface := output_slot s.g_output_surfaces s.g_output_surface
      if surface ≠ VA_INVALID_SURFACE then put_surface surface else []
    else []
  (r.1 ++ shown, s)

/-- The request `VOCTRL_PAUSE` of `control`. -/
def control_pause (s : VaState) : VaState := { s with g_is_paused := 1 }

/-- The request `VOCTRL_RESUME` of `control`. -/
def control_resume (s : VaState) : VaState := { s with g_is_paused := 0 }

/-- Function `free_video_specific`: destroys the decode context, the surfaces and the
decode configuration and frees the free-slot array, the surface array and the
entry-point array, setting each pointer to null (the on-screen-display and GL
resources it also releases are not modelled). -/
def free_video_specific (s : VaState) : VaState :=
  { s with va_context_id := 0, va_free_surfaces := none, va_surface_ids := none,
           va_config_id := 0, va_entrypoints := none }

/-- The results of the window set-up during one `config` call: the return value of
`config_x11`, and of `config_glx` when GLX rendering is compiled in and enabled. -/
structure WindowReplies where
  config_x11 : Int
  config_glx : Option Int

/-- Function `config`: releases the previous video-specific data, sets up the window,
runs `config_vaapi` and, on success, clears the pause flag and calls `resize` (the
image size and format it also stores are not modelled). -/
def config (K : ImgFmt) (w : WindowReplies) (r : ConfigReplies) (format : Nat)
    (s : VaState) : Int × VaState :=
  let s := free_video_specific s
  if w.config_x11 < 0 then (-1, s)
  else if w.config_glx.any (fun c => decide (c < 0)) then (-1, s)
  else
    let c := config_vaapi K r format s
    if c.1 < 0 then (-1, c.2)
    else
      let s := { c.2 with g_is_paused := 0 }
      (0, (resize s).2)

/-! ## Surface pool -/

/-- First half of the indirect path of `get_surface`: "Push current surface to a free
slot". -/
def push_current_surface (s : VaState) (p : SurfPtr) : Outcome VaState :=
  match s.va_free_surfaces with
  | none => .undefined
  | some arr =>
    match arr[s.va_free_surfaces_tail_index]? with
    | none => .undefined
    | some (some _) => .abort
    | some none =>
      if s.va_num_surfaces = 0 then .undefined
      else .ok { s with
        va_free_surfaces := some (arr.set s.va_free_surfaces_tail_index (some p)),
        va_free_surfaces_tail_index :=
          (s.va_free_surfaces_tail_index + 1) % s.va_num_surfaces }

/-- Second half of the indirect path of `get_surface`: "Pop the least recently used free
surface". -/
def pop_lru_surface (s : VaState) : Outcome (Option SurfPtr × VaState) :=
  match s.va_free_surfaces with
  | none => .undefined
  | some arr =>
    match arr[s.va_free_surfaces_head_index]? with
    | none => .undefined
    | some none => .abort
    | some (some surface) =>
      if s.va_num_surfaces = 0 then .undefined
      else .ok (some surface, { s with
        va_free_surfaces := some (arr.set s.va_free_surfaces_head_index none),
        va_free_surfaces_head_index :=
          (s.va_free_surfaces_head_index + 1) % s.va_num_surfaces })

/-- The direct path of `get_surface`: the entry of `va_free_surfaces` at `mpi->number`. -/
def direct_surface (s : VaState) (number : Int) : Outcome (Option SurfPtr × VaState) :=
  if number < (s.va_num_surfaces : Int) then
    match s.va_free_surfaces with
    | none => .undefined
    | some arr =>
      if number < 0 then .undefined
      else
        match arr[number.toNat]? with
        | none => .undefined
        | some surface => .ok (surface, s)
  else .abort

/-- Function `get_surface`: the surface pointer returned (possibly null) and the state after the
call. -/
def get_surface (s : VaState) (a : AttrReply) (mpi : mp_image_t) :
    Outcome (Option SurfPtr × VaState) :=
  let ds := is_direct_mapping s a
  let s := ds.2
  if ds.1 ≠ 0 then direct_surface s mpi.number
  else
    match mpi.priv with
    | some p =>
      match push_current_surface s p with
      | .ok s => pop_lru_surface s
      | .abort => .abort
      | .undefined => .undefined
    | none => pop_lru_surface s

/-- Successive `get_surface` calls: the pointers returned, in call order, and the final
state; the first call that does not return ends the run with its outcome. -/
def get_surfaces (s : VaState) :
    List (AttrReply × mp_image_t) → Outcome (List (Option SurfPtr) × VaState)
  | [] => .ok ([], s)
  | (a, mpi) :: rest =>
    match get_surface s a mpi with
    | .ok (p, s) =>
      match get_surfaces s rest with
      | .ok (ps, s) => .ok (p :: ps, s)
      | .abort => .abort
      | .undefined => .undefined
    | .abort => .abort
    | .undefined => .undefined

/-- The state of the module when the program starts: C zero-initialises the static
variables, `dm` starts at -1, and `preinit` has stored the `dm` option and the
profiles the driver reported. -/
def initial_state (va_dm : Int) (profiles : List Int) (num_profiles : Int) : VaState where
  g_is_paused := 0
  g_output_surfaces := (0, 0)
  g_output_surface := 0
  va_config_id := 0
  va_context_id := 0
  va_profiles := some profiles
  va_num_profiles := num_profiles
  va_entrypoints := none
  va_num_entrypoints := 0
  va_surface_ids := none
  va_num_surfaces := 0
  va_free_surfaces := none
  va_free_surfaces_head_index := 0
  va_free_surfaces_tail_index := 0
  va_dm := va_dm
  dm := -1

/-! ## Notions used to state the properties -/

/-- The handles held in the free queue: the non-null entries of `va_free_surfaces`. -/
def free_queue_handles (s : VaState) : List SurfPtr :=
  (s.va_free_surfaces.getD []).reduceOption

/-- The free-slot array is a ring buffer holding `q`: it has `va_num_surfaces` slots, and
counted cyclically from the head index the slots hold the handles of `q` in order, followed
by empty slots up to the end; the tail index is the slot after the last handle. -/
def RingShape (s : VaState) (q : List SurfPtr) : Prop :=
  ∃ arr, s.va_free_surfaces = some arr ∧ arr.length = s.va_num_surfaces ∧
    q.length ≤ s.va_num_surfaces ∧
    s.va_free_surfaces_head_index < s.va_num_surfaces ∧
    s.va_free_surfaces_tail_index
      = (s.va_free_surfaces_head_index + q.length) % s.va_num_surfaces ∧
    ∀ j, j < s.va_num_surfaces →
      arr[(s.va_free_surfaces_head_index + j) % s.va_num_surfaces]? = some q[j]?

/-- The surface set of the current configuration: the addresses of the elements of
`va_surface_ids`. -/
def surface_set (s : VaState) : List SurfPtr :=
  match s.va_surface_ids with
  | none => []
  | some arr => (List.range arr.ids.length).map (SurfPtr.mk arr.base)

/-- Replies with which every step of `config_vaapi` succeeds: the driver lists the VLD
entry point, supports 4:2:0, and numbers the surfaces it creates from 100. The
retention attribute it reports is `value`. -/
def demoReplies (value : Int) : ConfigReplies where
  calloc_entrypoints := true
  vaQueryConfigEntrypoints_status := 0
  vaQueryConfigEntrypoints_list := [1]
  vaQueryConfigEntrypoints_num := 1
  vaGetConfigAttributes_status := 0
  vaGetConfigAttributes_value := 1
  vaCreateConfig_status := 0
  vaCreateConfig_id := 7
  vaGetDisplayAttributes := ⟨0, value⟩
  calloc_surface_ids := some 4096
  vaCreateSurfaces_status := 0
  vaCreateSurfaces_id := fun i => 100 + i
  calloc_free_surfaces := true
  vaCreateSurfaceGLX_status := none
  vaCreateContext_status := 0
  vaCreateContext_id := 9

/-- The state at program start with the `dm` option given and a driver that reports the
profiles MPEG2 Simple, MPEG2 Main and H264 High. -/
def demoStart (va_dm : Int) : VaState :=
  initial_state va_dm [VAProfileMPEG2Simple, VAProfileMPEG2Main, VAProfileH264High] 3

/-- A first MPEG2 configuration under indirect policy (`dm=0`): six surfaces. -/
def demoIndirect : VaState :=
  (config_vaapi mplayerImgFmt (demoReplies 1) mplayerImgFmt.IMGFMT_VAAPI_MPEG2 (demoStart 0)).2

/-- A first H264 configuration with `dm=2` and a driver that does not retain surfaces:
direct policy, seventeen surfaces. -/
def demoDirect : VaState :=
  (config_vaapi mplayerImgFmt (demoReplies 0) mplayerImgFmt.IMGFMT_VAAPI_H264 (demoStart 2)).2

/-- A `get_surface` argument: image number `number` with previous surface `priv`. -/
def image (number : Int) (priv : Option SurfPtr) : AttrReply × mp_image_t :=
  (⟨0, 0⟩, ⟨number, priv, 0⟩)

/-- The non-null previous surfaces passed by a sequence of `get_surface` calls, in the
order of the calls. -/
def released (calls : List (AttrReply × mp_image_t)) : List SurfPtr :=
  calls.filterMap fun c => c.2.priv

/-- The address of element `i` of the surface-id array of the demonstration pools. -/
def demoSurface (i : Nat) : SurfPtr := ⟨4096, i⟩

/-- Four calls: the images 0, 1 and 2 give back the surfaces 0, 1 and 2, a fourth image
has no previous surface. -/
def demoCalls : List (AttrReply × mp_image_t) :=
  [image 0 (some (demoSurface 0)), image 1 (some (demoSurface 1)),
    image 2 (some (demoSurface 2)), image 3 none]

/-- The pool `demoIndirect` after five surfaces have been taken: only the last slot
is occupied and the head index stands on it. -/
def demoDrained : VaState :=
  { demoIndirect with
    va_free_surfaces := some [none, none, none, none, none, some ⟨4096, 5⟩],
    va_free_surfaces_head_index := 5 }

/-- The pool `demoDrained` after a call that gave back surface 0 and received surface 5. -/
def demoRefilled : VaState :=
  { demoIndirect with
    va_free_surfaces := some [some (demoSurface 0), none, none, none, none, none],
    va_free_surfaces_head_index := 0,
    va_free_surfaces_tail_index := 1 }

/-- The pool `demoIndirect` with an empty free queue, both indices at `i`. -/
def demoEmpty (i : Nat) : VaState :=
  { demoIndirect with
    va_free_surfaces := some (List.replicate 6 none),
    va_free_surfaces_head_index := i,
    va_free_surfaces_tail_index := i }

/-- The surface id a handle points to: the element of `va_surface_ids` at its address. -/
def surface_id (s : VaState) (p : SurfPtr) : Option Nat :=
  match s.va_surface_ids with
  | none => none
  | some arr => if p.base = arr.base then arr.ids[p.index]? else none

/-- The handles the caller holds after a `get_surface` call that returned `r`: the ones
held before without the previous surface given back, and `r`. -/
def held_after (held : List SurfPtr) (priv : Option SurfPtr) (r : SurfPtr) : List SurfPtr :=
  match priv with
  | some p => r :: held.erase p
  | none => r :: held

/-- States reached from `s0` by returning `get_surface` calls, `draw_image` calls and
`flip_page` calls, with the list of handles the caller holds: the ones `get_surface` has
returned and that have not been passed back since. Every non-null previous surface passed
to `get_surface` is a handle held. -/
inductive PoolReach (s0 : VaState) : VaState → List SurfPtr → Prop where
  | fresh : PoolReach s0 s0 []
  | acquire {s s1 : VaState} {held : List SurfPtr} {a : AttrReply} {mpi : mp_image_t}
      {r : SurfPtr} : PoolReach s0 s held → (∀ p, mpi.priv = some p → p ∈ held) →
      get_surface s a mpi = .ok (some r, s1) → PoolReach s0 s1 (held_after held mpi.priv r)
  | publish {s : VaState} {held : List SurfPtr} (mpi : mp_image_t) :
      PoolReach s0 s held → PoolReach s0 (draw_image s mpi) held
  | present {s : VaState} {held : List SurfPtr} :
      PoolReach s0 s held → PoolReach s0 (flip_page s).2 held

/-- The free queue contains a handle whose surface is stored in a non-empty slot of the
output ring. -/
def queue_meets_ring (s : VaState) : Prop :=
  ∃ p ∈ free_queue_handles s, ∃ i : Fin 2,
    output_slot s.g_output_surfaces i ≠ VA_INVALID_SURFACE ∧
    surface_id s p = some (output_slot s.g_output_surfaces i)

instance (s : VaState) : Decidable (queue_meets_ring s) := by
  unfold queue_meets_ring; infer_instance

/-- As `PoolReach`, with a caller that keeps the ring and the queue apart: a previous
surface passed to `get_surface` is a handle held whose surface is in no slot of the
output ring, and `draw_image` is given the surface of a handle held. -/
inductive RetiredReach (s0 : VaState) : VaState → List SurfPtr → Prop where
  | fresh : RetiredReach s0 s0 []
  | acquire {s s1 : VaState} {held : List SurfPtr} {a : AttrReply} {mpi : mp_image_t}
      {r : SurfPtr} : RetiredReach s0 s held →
      (∀ p, mpi.priv = some p →
        p ∈ held ∧ ∀ i : Fin 2, surface_id s p ≠ some (output_slot s.g_output_surfaces i)) →
      get_surface s a mpi = .ok (some r, s1) →
      RetiredReach s0 s1 (held_after held mpi.priv r)
  | publish {s : VaState} {held : List SurfPtr} (mpi : mp_image_t) :
      RetiredReach s0 s held → (∃ p ∈ held, surface_id s p = some (image_surface mpi)) →
      RetiredReach s0 (draw_image s mpi) held
  | present {s : VaState} {held : List SurfPtr} :
      RetiredReach s0 s held → RetiredReach s0 (flip_page s).2 held

/-- The pool `demoIndirect` after surface 0 has been taken. -/
def demoTaken : VaState :=
  { demoIndirect with
    va_free_surfaces := some [none, some (demoSurface 1), some (demoSurface 2),
      some (demoSurface 3), some (demoSurface 4), some (demoSurface 5)],
    va_free_surfaces_head_index := 1 }

/-- The pool `demoTaken` after surface 0 (id 100) has been drawn and shown and then given
back by a call that received surface 1. -/
def demoRecycled : VaState :=
  { demoIndirect with
    va_free_surfaces := some [some (demoSurface 0), none, some (demoSurface 2),
      some (demoSurface 3), some (demoSurface 4), some (demoSurface 5)],
    va_free_surfaces_head_index := 2,
    va_free_surfaces_tail_index := 1,
    g_output_surfaces := (100, VA_INVALID_SURFACE),
    g_output_surface := 1 }

/-- One of the steps of `config_vaapi` up to and including the allocation of
`va_surface_ids` fails: the profile check, the allocation or the query of the entry
points, the entry-point check, the chroma-format check, `vaCreateConfig`, the surface
count of the codec family, or the allocation of the surface array. -/
def fails_before_surfaces (K : ImgFmt) (r : ConfigReplies) (format : Nat) (s : VaState) :
    Prop :=
  VAProfile_from_imgfmt K s format < 0 ∨ r.calloc_entrypoints = false ∨
    check_status r.vaQueryConfigEntrypoints_status = false ∨
    has_entrypoint (some r.vaQueryConfigEntrypoints_list) r.vaQueryConfigEntrypoints_num
      (entrypoint_of_imgfmt K format) ≠ VAEntrypointVLD ∨
    entrypoint_of_imgfmt K format = 0 ∨
    check_status r.vaGetConfigAttributes_status = false ∨
    r.vaGetConfigAttributes_value &&& VA_RT_FORMAT_YUV420 = 0 ∨
    check_status r.vaCreateConfig_status = false ∨
    num_video_surfaces K format = 0 ∨
    r.calloc_surface_ids = none

instance (K : ImgFmt) (r : ConfigReplies) (format : Nat) (s : VaState) :
    Decidable (fails_before_surfaces K r format s) := by
  unfold fails_before_surfaces; infer_instance

/-- Slot `i` of the free-slot array holds a handle. -/
def slot_occupied (arr : List (Option SurfPtr)) (i : Nat) : Prop :=
  ∃ p, arr[i]? = some (some p)

/-- Index `i` lies in the cyclic range from `head` up to but excluding `tail`; when
`head = tail` the range is everything if `full` holds and nothing otherwise. -/
def in_cyclic_range (head tail : Nat) (full : Prop) (i : Nat) : Prop :=
  (head < tail ∧ head ≤ i ∧ i < tail) ∨ (tail < head ∧ (head ≤ i ∨ i < tail)) ∨
    (head = tail ∧ full)

/-- A first H264 configuration under indirect policy (`dm=0`): twenty-one surfaces. -/
def demoH264 : VaState :=
  (config_vaapi mplayerImgFmt (demoReplies 1) mplayerImgFmt.IMGFMT_VAAPI_H264 (demoStart 0)).2

/-- The pool `demoH264` after ten surfaces have been taken. -/
def demoH264Used : VaState :=
  { demoH264 with
    va_free_surfaces := some (List.replicate 10 none
      ++ (List.range' 10 11).map fun i => some (demoSurface i)),
    va_free_surfaces_head_index := 10 }

/-- The replies of `demoReplies` with the surface array allocated at another address. -/
def demoRepliesAt (base : Nat) : ConfigReplies :=
  { demoReplies 1 with calloc_surface_ids := some base }

/-- The pool `demoIndirect` after two surfaces have been taken and a third call has
given surface 0 back: the queue runs from slot 3 round to slot 0. -/
def demoWrapped : VaState :=
  { demoIndirect with
    va_free_surfaces := some [some (demoSurface 0), none, none,
      some (demoSurface 3), some (demoSurface 4), some (demoSurface 5)],
    va_free_surfaces_head_index := 3,
    va_free_surfaces_tail_index := 1 }

/-- The replies of `demoReplies` with a failing `vaCreateSurfaces`. -/
def demoSurfacesFail : ConfigReplies :=
  { demoReplies 1 with vaCreateSurfaces_status := -1 }

/-- The replies of `demoReplies` with a failing `vaCreateContext`. -/
def demoContextFails : ConfigReplies :=
  { demoReplies 1 with vaCreateContext_status := -1 }

/-- The state after the pool `demoH264Used` has been configured anew for MPEG2. -/
def demoReconfigured : VaState :=
  (config mplayerImgFmt ⟨0, none⟩ (demoRepliesAt 8192) mplayerImgFmt.IMGFMT_VAAPI_MPEG2
    demoH264Used).2

/-- The profiles the driver supports, as `has_profile` sees them: the first
`va_num_profiles` entries of `va_profiles`. -/
def supported_profiles (s : VaState) : List Int :=
  match s.va_profiles with
  | none => []
  | some ps => if s.va_num_profiles > 0 then ps.take s.va_num_profiles.toNat else []

/-- The entry points the driver lists, as `has_entrypoint` sees them: the first
`va_num_entrypoints` entries of `va_entrypoints`. -/
def listed_entrypoints (entrypoints : Option (List Int)) (num : Int) : List Int :=
  match entrypoints with
  | none => []
  | some es => if num > 0 then es.take num.toNat else []

/-- The replies of `demoReplies` from a driver whose only entry point is IDCT. -/
def demoRepliesIDCT : ConfigReplies :=
  { demoReplies 1 with vaQueryConfigEntrypoints_list := [VAEntrypointIDCT] }

/-- The replies of `demoReplies` from a driver whose only entry point is MoComp. -/
def demoRepliesMoComp : ConfigReplies :=
  { demoReplies 1 with vaQueryConfigEntrypoints_list := [VAEntrypointMoComp] }

/-- A program start with a driver that supports, in this order, the profiles MPEG4
Simple, H264 Baseline, MPEG4 Advanced Simple and H264 Main. -/
def demoProfiles : VaState :=
  initial_state 2 [VAProfileMPEG4Simple, VAProfileH264Baseline,
    VAProfileMPEG4AdvancedSimple, VAProfileH264Main] 4

/-! ## The free queue as a ring buffer -/

theorem mod_add_inj {N h j k : Nat} (hj : j < N) (hk : k < N)
    (e : (h + j) % N = (h + k) % N) : j = k := by
  have h1 : j % N = k % N := Nat.ModEq.add_left_cancel' h e
  rwa [Nat.mod_eq_of_lt hj, Nat.mod_eq_of_lt hk] at h1

theorem ringShape_head_slot {s : VaState} {q : List SurfPtr} {arr : List (Option SurfPtr)}
    (ha : s.va_free_surfaces = some arr) (hq : RingShape s q) :
    arr[s.va_free_surfaces_head_index]? = some q[0]? := by
  obtain ⟨arr1, ha1, -, -, hh, -, hslots⟩ := hq
  rw [ha] at ha1
  cases ha1
  have := hslots 0 (by omega)
  rwa [Nat.add_zero, Nat.mod_eq_of_lt hh] at this

/-- Popping a ring that holds `x :: rest` returns `x` and leaves a ring that holds `rest`. -/
theorem pop_lru_surface_cons {s : VaState} {x : SurfPtr} {rest : List SurfPtr}
    (hq : RingShape s (x :: rest)) :
    ∃ s1, pop_lru_surface s = .ok (some x, s1) ∧ RingShape s1 rest ∧
      s1.va_free_surfaces_tail_index = s.va_free_surfaces_tail_index ∧
      s1.va_num_surfaces = s.va_num_surfaces ∧ s1.dm = s.dm := by
  obtain ⟨arr, ha, hlen, hk, hh, ht, hslots⟩ := id hq
  have hhead := ringShape_head_slot ha hq
  have hN : s.va_num_surfaces ≠ 0 := by omega
  simp only [List.length_cons] at hk ht
  refine ⟨{ s with
      va_free_surfaces := some (arr.set s.va_free_surfaces_head_index none),
      va_free_surfaces_head_index := (s.va_free_surfaces_head_index + 1) % s.va_num_surfaces },
    ?_, ⟨arr.set s.va_free_surfaces_head_index none, rfl, ?_, ?_, ?_, ?_, ?_⟩, rfl, rfl, rfl⟩
  · simp [pop_lru_surface, ha, hhead, hN]
  · simpa using hlen
  · show rest.length ≤ s.va_num_surfaces
    omega
  · exact Nat.mod_lt _ (by omega)
  · show s.va_free_surfaces_tail_index = _
    rw [ht, Nat.mod_add_mod]
    congr 1
    omega
  · intro j hj
    replace hj : j < s.va_num_surfaces := hj
    show (arr.set s.va_free_surfaces_head_index none)[
      ((s.va_free_surfaces_head_index + 1) % s.va_num_surfaces + j) % s.va_num_surfaces]? = _
    have e : ((s.va_free_surfaces_head_index + 1) % s.va_num_surfaces + j) % s.va_num_surfaces
        = (s.va_free_surfaces_head_index + (j + 1)) % s.va_num_surfaces := by
      rw [Nat.mod_add_mod]
      congr 1
      omega
    rw [e]
    by_cases hj1 : j + 1 < s.va_num_surfaces
    · have hne : s.va_free_surfaces_head_index
          ≠ (s.va_free_surfaces_head_index + (j + 1)) % s.va_num_surfaces := by
        intro h
        have h0 : (s.va_free_surfaces_head_index + 0) % s.va_num_surfaces
            = (s.va_free_surfaces_head_index + (j + 1)) % s.va_num_surfaces := by
          rw [Nat.add_zero, Nat.mod_eq_of_lt hh]
          exact h
        have := mod_add_inj (by omega) hj1 h0
        omega
      rw [List.getElem?_set_ne hne, hslots (j + 1) hj1]
      simp
    · have hjN : j + 1 = s.va_num_surfaces := by omega
      have hidx : (s.va_free_surfaces_head_index + (j + 1)) % s.va_num_surfaces
          = s.va_free_surfaces_head_index := by
        rw [hjN, Nat.add_mod_right, Nat.mod_eq_of_lt hh]
      rw [hidx, List.getElem?_set_self (by omega)]
      have : rest.length ≤ j := by omega
      rw [List.getElem?_eq_none this]

/-- Popping a ring that holds no handle stops at the assertion. -/
theorem pop_lru_surface_nil {s : VaState} (hq : RingShape s []) :
    pop_lru_surface s = .abort := by
  obtain ⟨arr, ha, -⟩ := id hq
  have hhead := ringShape_head_slot ha hq
  simp [pop_lru_surface, ha, hhead]

/-- The slot at the tail index of a ring holding `q` holds the entry of `q` at position
`q.length` taken cyclically: it is empty unless the ring is full. -/
theorem ringShape_tail_slot {s : VaState} {q : List SurfPtr} {arr : List (Option SurfPtr)}
    (ha : s.va_free_surfaces = some arr) (hq : RingShape s q)
    (hroom : q.length < s.va_num_surfaces) :
    arr[s.va_free_surfaces_tail_index]? = some none := by
  obtain ⟨arr1, ha1, -, -, -, ht, hslots⟩ := hq
  rw [ha] at ha1
  cases ha1
  rw [ht, hslots _ hroom, List.getElem?_eq_none (Nat.le_refl _)]

/-- Pushing onto a ring with an empty slot left appends the handle to the queue. -/
theorem push_current_surface_room {s : VaState} {q : List SurfPtr} (p : SurfPtr)
    (hq : RingShape s q) (hroom : q.length < s.va_num_surfaces) :
    ∃ s1, push_current_surface s p = .ok s1 ∧ RingShape s1 (q ++ [p]) ∧
      s1.va_free_surfaces_head_index = s.va_free_surfaces_head_index ∧
      s1.va_num_surfaces = s.va_num_surfaces ∧ s1.dm = s.dm := by
  obtain ⟨arr, ha, hlen, hk, hh, ht, hslots⟩ := id hq
  have htail := ringShape_tail_slot ha hq hroom
  have hN : s.va_num_surfaces ≠ 0 := by omega
  have htl : s.va_free_surfaces_tail_index < arr.length := by
    rw [ht, hlen]
    exact Nat.mod_lt _ (by omega)
  refine ⟨{ s with
      va_free_surfaces := some (arr.set s.va_free_surfaces_tail_index (some p)),
      va_free_surfaces_tail_index := (s.va_free_surfaces_tail_index + 1) % s.va_num_surfaces },
    ?_, ⟨arr.set s.va_free_surfaces_tail_index (some p), rfl, ?_, ?_, hh, ?_, ?_⟩,
    rfl, rfl, rfl⟩
  · simp [push_current_surface, ha, htail, hN]
  · simpa using hlen
  · show (q ++ [p]).length ≤ s.va_num_surfaces
    simp only [List.length_append, List.length_singleton]
    omega
  · show (s.va_free_surfaces_tail_index + 1) % s.va_num_surfaces
      = (s.va_free_surfaces_head_index + (q ++ [p]).length) % s.va_num_surfaces
    simp only [List.length_append, List.length_singleton]
    rw [ht, Nat.mod_add_mod, Nat.add_assoc]
  · intro j hj
    replace hj : j < s.va_num_surfaces := hj
    show (arr.set s.va_free_surfaces_tail_index (some p))[
      (s.va_free_surfaces_head_index + j) % s.va_num_surfaces]? = _
    by_cases hjk : j = q.length
    · subst hjk
      rw [← ht, List.getElem?_set_self htl, List.getElem?_concat_length]
    · have hne : s.va_free_surfaces_tail_index
          ≠ (s.va_free_surfaces_head_index + j) % s.va_num_surfaces := by
        rw [ht]
        intro h
        exact hjk (mod_add_inj hroom hj h).symm
      rw [List.getElem?_set_ne hne, hslots j hj]
      congr 1
      by_cases hlt : j < q.length
      · rw [List.getElem?_append_left hlt]
      · rw [List.getElem?_eq_none (by omega), List.getElem?_eq_none]
        simp only [List.length_append, List.length_singleton]
        omega

/-- Pushing onto a ring whose slots are all occupied stops at the assertion. -/
theorem push_current_surface_full {s : VaState} {q : List SurfPtr} (p : SurfPtr)
    (hq : RingShape s q) (hfull : q.length = s.va_num_surfaces) :
    push_current_surface s p = .abort := by
  obtain ⟨arr, ha, hlen, hk, hh, ht, hslots⟩ := id hq
  have hhead := ringShape_head_slot ha hq
  have htl : s.va_free_surfaces_tail_index = s.va_free_surfaces_head_index := by
    rw [ht, hfull, Nat.add_mod_right, Nat.mod_eq_of_lt hh]
  obtain ⟨x, hx⟩ : ∃ x, q[0]? = some x := by
    cases q with
    | nil => simp at hfull; omega
    | cons x rest => exact ⟨x, by simp⟩
  simp [push_current_surface, ha, htl, hhead, hx]

/-- With the policy resolved to indirect, `get_surface` is the push (when the image has
a previous surface) followed by the pop. -/
theorem get_surface_indirect {s : VaState} (hdm : s.dm = 0) (a : AttrReply)
    (mpi : mp_image_t) :
    get_surface s a mpi =
      match mpi.priv with
      | some p =>
        match push_current_surface s p with
        | .ok s => pop_lru_surface s
        | .abort => .abort
        | .undefined => .undefined
      | none => pop_lru_surface s := by
  simp [get_surface, is_direct_mapping, hdm]

/-- A returning indirect `get_surface` on a ring holding `q` returns the first handle of
`q` followed by the previous surface, and leaves a ring holding the rest. -/
theorem get_surface_ring_ok {s s1 : VaState} {q : List SurfPtr} {a : AttrReply}
    {mpi : mp_image_t} {r : Option SurfPtr} (hdm : s.dm = 0) (hq : RingShape s q)
    (h : get_surface s a mpi = .ok (r, s1)) :
    ∃ x rest, q ++ mpi.priv.toList = x :: rest ∧ r = some x ∧ RingShape s1 rest ∧
      s1.dm = 0 ∧ s1.va_num_surfaces = s.va_num_surfaces := by
  rw [get_surface_indirect hdm] at h
  have hpop : ∀ {t : VaState} {q1 : List SurfPtr}, RingShape t q1 →
      pop_lru_surface t = .ok (r, s1) →
      ∃ x rest, q1 = x :: rest ∧ r = some x ∧ RingShape s1 rest ∧
        s1.dm = t.dm ∧ s1.va_num_surfaces = t.va_num_surfaces := by
    intro t q1 ht hp
    cases q1 with
    | nil => rw [pop_lru_surface_nil ht] at hp; cases hp
    | cons x rest =>
      obtain ⟨t1, e, hr, -, hn, hd⟩ := pop_lru_surface_cons ht
      rw [e] at hp
      cases hp
      exact ⟨x, rest, rfl, rfl, hr, hd, hn⟩
  cases hp : mpi.priv with
  | none =>
    rw [hp] at h
    obtain ⟨x, rest, e, hr, hs, hd, hn⟩ := hpop hq h
    exact ⟨x, rest, by simpa using e, hr, hs, by rw [hd, hdm], hn⟩
  | some p =>
    rw [hp] at h
    by_cases hroom : q.length < s.va_num_surfaces
    · obtain ⟨t, e, ht, -, hn, hd⟩ := push_current_surface_room p hq hroom
      simp only [e] at h
      obtain ⟨x, rest, e1, hr, hs, hd1, hn1⟩ := hpop ht h
      exact ⟨x, rest, by simpa using e1, hr, hs, by rw [hd1, hd, hdm], by rw [hn1, hn]⟩
    · have hfull : q.length = s.va_num_surfaces := by
        obtain ⟨_, _, _, hk, _⟩ := hq
        omega
      simp [push_current_surface_full p hq hfull] at h

theorem released_cons (c : AttrReply × mp_image_t) (cs : List (AttrReply × mp_image_t)) :
    released (c :: cs) = c.2.priv.toList ++ released cs := by
  unfold released
  cases h : c.2.priv <;> simp [List.filterMap_cons, h]

/-- A returning run of indirect `get_surface` calls on a ring holding `q` returns, in
order, the first handles of `q` followed by the released surfaces, one per call, and
leaves a ring holding the remaining ones. -/
theorem get_surfaces_ring_ok :
    ∀ (calls : List (AttrReply × mp_image_t)) {s s1 : VaState} {q : List SurfPtr}
      {rs : List (Option SurfPtr)}, s.dm = 0 → RingShape s q →
      get_surfaces s calls = .ok (rs, s1) →
      ∃ hs rem, q ++ released calls = hs ++ rem ∧ rs = hs.map some ∧
        hs.length = calls.length ∧ RingShape s1 rem ∧ s1.dm = 0 ∧
        s1.va_num_surfaces = s.va_num_surfaces
  | [], s, s1, q, rs, hdm, hq, h => by
    simp only [get_surfaces, Outcome.ok.injEq, Prod.mk.injEq] at h
    obtain ⟨h1, h2⟩ := h
    subst h1 h2
    exact ⟨[], q, by simp [released], rfl, rfl, hq, hdm, rfl⟩
  | (a, mpi) :: rest, s, s1, q, rs, hdm, hq, h => by
    simp only [get_surfaces] at h
    cases hg : get_surface s a mpi with
    | abort => simp [hg] at h
    | undefined => simp [hg] at h
    | ok pt =>
      obtain ⟨p, t⟩ := pt
      simp only [hg] at h
      cases hr : get_surfaces t rest with
      | abort => simp [hr] at h
      | undefined => simp [hr] at h
      | ok pst =>
        obtain ⟨ps, t2⟩ := pst
        simp only [hr, Outcome.ok.injEq, Prod.mk.injEq] at h
        obtain ⟨h1, h2⟩ := h
        subst h1 h2
        obtain ⟨x, rest1, e, hp, ht, htdm, htn⟩ := get_surface_ring_ok hdm hq hg
        obtain ⟨hs, rem, e1, hps, hlen, hrem, hd, hn⟩ :=
          get_surfaces_ring_ok rest htdm ht hr
        refine ⟨x :: hs, rem, ?_, ?_, ?_, hrem, hd, by rw [hn, htn]⟩
        · rw [released_cons, ← List.append_assoc]
          show (q ++ mpi.priv.toList) ++ released rest = _
          rw [e, List.cons_append, e1, List.cons_append]
        · rw [hp, hps, List.map_cons]
        · simp [hlen]

/-- C1. Under indirect policy `get_surface` recycles in FIFO order: on a pool whose free
queue is a ring holding `q` (counted from the head index), a run of `get_surface` calls
that all return hands out, call after call, the handles of `q` followed by the non-null
previous surfaces in the order they were passed; there are at least as many of them as
calls. -/
theorem get_surface_fifo (s s1 : VaState) (q : List SurfPtr)
    (calls : List (AttrReply × mp_image_t)) (rs : List (Option SurfPtr))
    (hdm : s.dm = 0) (hq : RingShape s q)
    (hrun : get_surfaces s calls = .ok (rs, s1)) :
    calls.length ≤ (q ++ released calls).length ∧
      rs = ((q ++ released calls).take calls.length).map some := by
  obtain ⟨hs, rem, e, hrs, hlen, -⟩ := get_surfaces_ring_ok calls hdm hq hrun
  rw [e, List.take_left' hlen]
  refine ⟨?_, hrs⟩
  rw [List.length_append]
  omega

/-- Witness of C1: with one surface left in the queue, releasing the surfaces 0, 1, 2 in
this order hands out the surface left and then 0, 1, 2 in this order. -/
theorem get_surface_fifo_witness :
    demoDrained.dm = 0 ∧ RingShape demoDrained [demoSurface 5] ∧
      get_surfaces demoDrained demoCalls
        = .ok ([some (demoSurface 5), some (demoSurface 0), some (demoSurface 1),
            some (demoSurface 2)], demoEmpty 3) ∧
      [some (demoSurface 5), some (demoSurface 0), some (demoSurface 1),
          some (demoSurface 2)]
        = (([demoSurface 5] ++ released demoCalls).take demoCalls.length).map some :=
  ⟨by decide, ⟨_, rfl, by decide, by decide, by decide, by decide, by decide⟩, by decide,
    (get_surface_fifo demoDrained (demoEmpty 3) [demoSurface 5] demoCalls
      [some (demoSurface 5), some (demoSurface 0), some (demoSurface 1),
        some (demoSurface 2)]
      (by decide) ⟨_, rfl, by decide, by decide, by decide, by decide, by decide⟩
      (by decide)).2⟩

/-! ## Single calls on an arbitrary pool state -/

theorem is_direct_mapping_frame (s : VaState) (a : AttrReply) :
    (is_direct_mapping s a).2 = { s with dm := (is_direct_mapping s a).2.dm } := by
  unfold is_direct_mapping
  split <;> rfl

/-- What a returning push has done. -/
theorem push_current_surface_ok {s s1 : VaState} {p : SurfPtr}
    (h : push_current_surface s p = .ok s1) :
    ∃ arr, s.va_free_surfaces = some arr ∧
      arr[s.va_free_surfaces_tail_index]? = some none ∧
      s1 = { s with
        va_free_surfaces := some (arr.set s.va_free_surfaces_tail_index (some p)),
        va_free_surfaces_tail_index :=
          (s.va_free_surfaces_tail_index + 1) % s.va_num_surfaces } := by
  unfold push_current_surface at h
  split at h
  · cases h
  · rename_i arr ha
    split at h
    · cases h
    · cases h
    · rename_i hslot
      split at h
      · cases h
      · cases h
        exact ⟨arr, ha, hslot, rfl⟩

/-- What a returning pop has done. -/
theorem pop_lru_surface_ok {s s1 : VaState} {r : Option SurfPtr}
    (h : pop_lru_surface s = .ok (r, s1)) :
    ∃ arr x, s.va_free_surfaces = some arr ∧
      arr[s.va_free_surfaces_head_index]? = some (some x) ∧ r = some x ∧
      s1 = { s with
        va_free_surfaces := some (arr.set s.va_free_surfaces_head_index none),
        va_free_surfaces_head_index :=
          (s.va_free_surfaces_head_index + 1) % s.va_num_surfaces } := by
  unfold pop_lru_surface at h
  split at h
  · cases h
  · rename_i arr ha
    split at h
    · cases h
    · cases h
    · rename_i x hslot
      split at h
      · cases h
      · cases h
        exact ⟨arr, x, ha, hslot, rfl, rfl⟩

/-- Filling an empty slot adds the handle to the handles held. -/
theorem reduceOption_set_some {α : Type} (p : α) :
    ∀ (arr : List (Option α)) (i : Nat), arr[i]? = some none →
      ((arr.set i (some p)).reduceOption).Perm (p :: arr.reduceOption)
  | [], i, h => by simp at h
  | v :: l, 0, h => by
    simp only [List.getElem?_cons_zero, Option.some.injEq] at h
    subst h
    simp [List.reduceOption_cons_of_none, List.reduceOption_cons_of_some]
  | none :: l, i + 1, h => by
    simp only [List.getElem?_cons_succ] at h
    simpa [List.reduceOption_cons_of_none] using reduceOption_set_some p l i h
  | some y :: l, i + 1, h => by
    simp only [List.getElem?_cons_succ] at h
    simp only [List.set_cons_succ, List.reduceOption_cons_of_some]
    exact ((reduceOption_set_some p l i h).cons y).trans (List.Perm.swap p y _)

/-- Emptying an occupied slot removes its handle from the handles held. -/
theorem reduceOption_set_none {α : Type} (x : α) :
    ∀ (arr : List (Option α)) (i : Nat), arr[i]? = some (some x) →
      (arr.reduceOption).Perm (x :: (arr.set i none).reduceOption)
  | [], i, h => by simp at h
  | v :: l, 0, h => by
    simp only [List.getElem?_cons_zero, Option.some.injEq] at h
    subst h
    simp [List.reduceOption_cons_of_none, List.reduceOption_cons_of_some]
  | none :: l, i + 1, h => by
    simp only [List.getElem?_cons_succ] at h
    simpa [List.reduceOption_cons_of_none] using reduceOption_set_none x l i h
  | some y :: l, i + 1, h => by
    simp only [List.getElem?_cons_succ] at h
    simp only [List.set_cons_succ, List.reduceOption_cons_of_some]
    exact ((reduceOption_set_none x l i h).cons y).trans (List.Perm.swap x y _)

/-- A returning push adds the handle pushed to the free queue. -/
theorem push_current_surface_handles {s s1 : VaState} {p : SurfPtr}
    (h : push_current_surface s p = .ok s1) :
    (free_queue_handles s1).Perm (p :: free_queue_handles s) := by
  obtain ⟨arr, ha, hslot, rfl⟩ := push_current_surface_ok h
  simpa [free_queue_handles, ha] using reduceOption_set_some p arr _ hslot

/-- A returning pop takes the handle returned out of the free queue. -/
theorem pop_lru_surface_handles {s s1 : VaState} {r : Option SurfPtr}
    (h : pop_lru_surface s = .ok (r, s1)) :
    ∃ x, r = some x ∧ (free_queue_handles s).Perm (x :: free_queue_handles s1) := by
  obtain ⟨arr, x, ha, hslot, hr, rfl⟩ := pop_lru_surface_ok h
  exact ⟨x, hr, by simpa [free_queue_handles, ha] using reduceOption_set_none x arr _ hslot⟩

/-- The indirect path of `get_surface` for a call on which `is_direct_mapping` answers 0. -/
theorem get_surface_of_indirect {s : VaState} {a : AttrReply} (mpi : mp_image_t)
    (hind : (is_direct_mapping s a).1 = 0) :
    get_surface s a mpi =
      match mpi.priv with
      | some p =>
        match push_current_surface (is_direct_mapping s a).2 p with
        | .ok s => pop_lru_surface s
        | .abort => .abort
        | .undefined => .undefined
      | none => pop_lru_surface (is_direct_mapping s a).2 := by
  simp [get_surface, hind]

theorem free_queue_handles_is_direct_mapping (s : VaState) (a : AttrReply) :
    free_queue_handles (is_direct_mapping s a).2 = free_queue_handles s := by
  rw [is_direct_mapping_frame]
  rfl

/-- C3. Under indirect policy both free-queue violations stop `get_surface` at an
assertion instead of producing a handle: a call without previous surface aborts when the
slot at the head index is empty (in particular when the queue holds no handle at all),
and a call with a previous surface aborts when the slot at the tail index is occupied. -/
theorem get_surface_violation_aborts (s : VaState) (a : AttrReply) (mpi : mp_image_t)
    (arr : List (Option SurfPtr)) (hind : (is_direct_mapping s a).1 = 0)
    (ha : s.va_free_surfaces = some arr) :
    (mpi.priv = none → arr[s.va_free_surfaces_head_index]? = some none →
        get_surface s a mpi = .abort) ∧
      (mpi.priv = none → free_queue_handles s = [] →
        s.va_free_surfaces_head_index < arr.length → get_surface s a mpi = .abort) ∧
      (mpi.priv ≠ none → (∃ x, arr[s.va_free_surfaces_tail_index]? = some (some x)) →
        get_surface s a mpi = .abort) := by
  have ha1 : (is_direct_mapping s a).2.va_free_surfaces = some arr := by
    rw [is_direct_mapping_frame]; exact ha
  have hh : (is_direct_mapping s a).2.va_free_surfaces_head_index
      = s.va_free_surfaces_head_index := by rw [is_direct_mapping_frame]
  have ht : (is_direct_mapping s a).2.va_free_surfaces_tail_index
      = s.va_free_surfaces_tail_index := by rw [is_direct_mapping_frame]
  have hempty : mpi.priv = none → arr[s.va_free_surfaces_head_index]? = some none →
      get_surface s a mpi = .abort := by
    intro hp hslot
    rw [get_surface_of_indirect mpi hind, hp]
    simp [pop_lru_surface, ha1, hh, hslot]
  refine ⟨hempty, ?_, ?_⟩
  · intro hp hnil hlt
    apply hempty hp
    rw [List.getElem?_eq_getElem hlt]
    cases hv : arr[s.va_free_surfaces_head_index] with
    | none => rfl
    | some x =>
      have hx : x ∈ free_queue_handles s := by
        simp only [free_queue_handles, ha, Option.getD_some, List.reduceOption_mem_iff]
        rw [← hv]
        exact List.getElem_mem _
      rw [hnil] at hx
      cases hx
  · rintro hp ⟨x, hslot⟩
    obtain ⟨p, hp1⟩ := Option.ne_none_iff_exists'.mp hp
    rw [get_surface_of_indirect mpi hind, hp1]
    simp [push_current_surface, ha1, ht, hslot]

/-- C4. Under indirect policy a returning `get_surface` call with a previous surface
leaves the number of handles in the free queue unchanged, and a returning call without
one decreases it by exactly one. -/
theorem get_surface_queue_size (s s1 : VaState) (a : AttrReply) (mpi : mp_image_t)
    (r : Option SurfPtr) (hind : (is_direct_mapping s a).1 = 0)
    (h : get_surface s a mpi = .ok (r, s1)) :
    (mpi.priv ≠ none → (free_queue_handles s1).length = (free_queue_handles s).length) ∧
      (mpi.priv = none →
        (free_queue_handles s1).length + 1 = (free_queue_handles s).length) := by
  rw [get_surface_of_indirect mpi hind] at h
  constructor
  · intro hp
    obtain ⟨p, hp1⟩ := Option.ne_none_iff_exists'.mp hp
    rw [hp1] at h
    cases hpush : push_current_surface (is_direct_mapping s a).2 p with
    | abort => simp [hpush] at h
    | undefined => simp [hpush] at h
    | ok t =>
      simp only [hpush] at h
      obtain ⟨x, -, hx⟩ := pop_lru_surface_handles h
      have h1 := (push_current_surface_handles hpush).length_eq
      have h2 := hx.length_eq
      rw [free_queue_handles_is_direct_mapping] at h1
      simp only [List.length_cons] at h1 h2
      omega
  · intro hp
    rw [hp] at h
    obtain ⟨x, -, hx⟩ := pop_lru_surface_handles h
    have h2 := hx.length_eq
    rw [free_queue_handles_is_direct_mapping] at h2
    simp only [List.length_cons] at h2
    omega

/-- Witness of C3: on the demonstration pool with an empty queue a call without previous
surface aborts, and on the full pool a call with a previous surface aborts. -/
theorem get_surface_violation_aborts_witness :
    (is_direct_mapping (demoEmpty 2) ⟨0, 0⟩).1 = 0 ∧
      get_surface (demoEmpty 2) ⟨0, 0⟩ ⟨0, none, 0⟩ = .abort ∧
      get_surface demoIndirect ⟨0, 0⟩ ⟨0, some (demoSurface 0), 0⟩ = .abort :=
  ⟨by decide,
    (get_surface_violation_aborts (demoEmpty 2) ⟨0, 0⟩ ⟨0, none, 0⟩ _ (by decide) rfl).1
      rfl (by decide),
    (get_surface_violation_aborts demoIndirect ⟨0, 0⟩ ⟨0, some (demoSurface 0), 0⟩
      ((List.range 6).map fun i => some (SurfPtr.mk 4096 i)) (by decide) (by decide)).2.2
      (by decide) ⟨demoSurface 0, by decide⟩⟩

/-- Witness of C4: on the pool with one surface left, the call that gives back surface 0
returns surface 5 and leaves one handle in the queue; the call without previous surface
returns surface 5 and leaves none. -/
theorem get_surface_queue_size_witness :
    (is_direct_mapping demoDrained ⟨0, 0⟩).1 = 0 ∧
      (free_queue_handles demoDrained).length = 1 ∧
      get_surface demoDrained ⟨0, 0⟩ ⟨0, some (demoSurface 0), 0⟩
        = .ok (some (demoSurface 5), demoRefilled) ∧
      (free_queue_handles demoRefilled).length = (free_queue_handles demoDrained).length ∧
      get_surface demoDrained ⟨0, 0⟩ ⟨0, none, 0⟩ = .ok (some (demoSurface 5), demoEmpty 0) ∧
      (free_queue_handles (demoEmpty 0)).length + 1
        = (free_queue_handles demoDrained).length :=
  ⟨by decide, by decide, by decide,
    (get_surface_queue_size demoDrained demoRefilled ⟨0, 0⟩ ⟨0, some (demoSurface 0), 0⟩
      (some (demoSurface 5)) (by decide) (by decide)).1 (by decide),
    by decide,
    (get_surface_queue_size demoDrained (demoEmpty 0) ⟨0, 0⟩ ⟨0, none, 0⟩
      (some (demoSurface 5)) (by decide) (by decide)).2 rfl⟩

/-! ## Configuration -/

theorem is_direct_mapping_dm (s : VaState) (a : AttrReply) :
    (is_direct_mapping s a).2.dm = (is_direct_mapping s a).1 := by
  unfold is_direct_mapping
  split <;> rfl

/-- After `is_direct_mapping` the cached policy is final: a negative value can only be
a negative `dm` setting, which every later call computes again. -/
theorem is_direct_mapping_cached (s : VaState) (a : AttrReply) :
    (is_direct_mapping s a).2.dm < 0 →
      (is_direct_mapping s a).2.va_dm = (is_direct_mapping s a).2.dm := by
  unfold is_direct_mapping
  split
  · intro h
    show s.va_dm = is_direct_mapping_init s.va_dm a
    replace h : is_direct_mapping_init s.va_dm a < 0 := h
    unfold is_direct_mapping_init at h ⊢
    split
    · rfl
    · rename_i h2
      simp only [h2, if_false] at h
      split at h
      · split at h <;> omega
      · omega
  · intro h
    replace h : s.dm < 0 := h
    omega

/-- With a final cached policy, `is_direct_mapping` returns it and changes nothing. -/
theorem is_direct_mapping_of_cached {s : VaState} (h : s.dm < 0 → s.va_dm = s.dm)
    (a : AttrReply) : is_direct_mapping s a = (s.dm, s) := by
  unfold is_direct_mapping
  split
  · rename_i hneg
    have e : is_direct_mapping_init s.va_dm a = s.dm := by
      unfold is_direct_mapping_init
      rw [h hneg, if_pos (by omega)]
    simp only [e]
  · rfl

/-- What the last part of a successful `config_vaapi` has stored. -/
theorem config_vaapi_surfaces_ok {r : ConfigReplies} {t s : VaState}
    (h : config_vaapi_surfaces r t = (0, s)) :
    ∃ base, r.calloc_surface_ids = some base ∧
      s = { t with
        va_surface_ids := some ⟨base, (List.range t.va_num_surfaces).map r.vaCreateSurfaces_id⟩,
        va_free_surfaces :=
          some ((List.range t.va_num_surfaces).map fun i => some (SurfPtr.mk base i)),
        va_context_id := r.vaCreateContext_id,
        g_output_surface := 0,
        g_output_surfaces := (VA_INVALID_SURFACE, VA_INVALID_SURFACE) } := by
  unfold config_vaapi_surfaces at h
  split at h
  · simp at h
  · rename_i base hb
    refine ⟨base, hb, ?_⟩
    simp only at h
    split_ifs at h <;> simp at h
    exact h.symm

/-- What a successful `config_vaapi` has stored from the sizing step on. -/
theorem config_vaapi_sizing_ok {K : ImgFmt} {r : ConfigReplies} {format : Nat}
    {t s : VaState} (h : config_vaapi_sizing K r format t = (0, s)) :
    ∃ base, r.calloc_surface_ids = some base ∧
      s.va_surface_ids
        = some ⟨base, (List.range s.va_num_surfaces).map r.vaCreateSurfaces_id⟩ ∧
      s.va_free_surfaces
        = some ((List.range s.va_num_surfaces).map fun i => some (SurfPtr.mk base i)) ∧
      num_video_surfaces K format ≠ 0 ∧
      s.va_num_surfaces
        = (if s.dm = 0 then FFMIN (2 * num_video_surfaces K format) MAX_VIDEO_SURFACES
            else num_video_surfaces K format) ∧
      s.va_free_surfaces_head_index = t.va_free_surfaces_head_index ∧
      s.va_free_surfaces_tail_index = t.va_free_surfaces_tail_index ∧
      s.g_output_surfaces = (VA_INVALID_SURFACE, VA_INVALID_SURFACE) ∧
      s.g_output_surface = 0 ∧
      (s.dm < 0 → s.va_dm = s.dm) := by
  unfold config_vaapi_sizing at h
  simp only at h
  split at h
  · simp at h
  · rename_i hn
    generalize hds : is_direct_mapping _ r.vaGetDisplayAttributes = ds at h
    have hfr := is_direct_mapping_frame
      { t with va_num_surfaces := num_video_surfaces K format } r.vaGetDisplayAttributes
    have hdm := is_direct_mapping_dm
      { t with va_num_surfaces := num_video_surfaces K format } r.vaGetDisplayAttributes
    have hc := is_direct_mapping_cached
      { t with va_num_surfaces := num_video_surfaces K format } r.vaGetDisplayAttributes
    rw [hds] at hfr hdm hc
    obtain ⟨base, hb, rfl⟩ := config_vaapi_surfaces_ok h
    have hN : ds.2.va_num_surfaces = num_video_surfaces K format := by rw [hfr]
    refine ⟨base, hb, rfl, rfl, hn, ?_, ?_, ?_, rfl, rfl, hc⟩
    · show (if ds.1 = 0 then _ else _) = if ds.2.dm = 0 then _ else _
      rw [hdm, hN]
    · show ds.2.va_free_surfaces_head_index = _
      rw [hfr]
    · show ds.2.va_free_surfaces_tail_index = _
      rw [hfr]

/-- What a successful `config_vaapi` has stored: the surface count is the one of the
codec family, doubled and clamped when the policy is indirect; the surface array holds
the ids the driver created; slot `i` of the free-slot array points to element `i` of the
surface array; the queue indices are the ones found; the output ring is reset. -/
theorem config_vaapi_ok {K : ImgFmt} {r : ConfigReplies} {format : Nat} {s0 s : VaState}
    (h : config_vaapi K r format s0 = (0, s)) :
    ∃ base, r.calloc_surface_ids = some base ∧
      s.va_surface_ids
        = some ⟨base, (List.range s.va_num_surfaces).map r.vaCreateSurfaces_id⟩ ∧
      s.va_free_surfaces
        = some ((List.range s.va_num_surfaces).map fun i => some (SurfPtr.mk base i)) ∧
      num_video_surfaces K format ≠ 0 ∧
      s.va_num_surfaces
        = (if s.dm = 0 then FFMIN (2 * num_video_surfaces K format) MAX_VIDEO_SURFACES
            else num_video_surfaces K format) ∧
      s.va_free_surfaces_head_index = s0.va_free_surfaces_head_index ∧
      s.va_free_surfaces_tail_index = s0.va_free_surfaces_tail_index ∧
      s.g_output_surfaces = (VA_INVALID_SURFACE, VA_INVALID_SURFACE) ∧
      s.g_output_surface = 0 ∧
      (s.dm < 0 → s.va_dm = s.dm) := by
  unfold config_vaapi at h
  simp only at h
  split_ifs at h <;> try solve | simp at h
  exact config_vaapi_sizing_ok (t := { s0 with
    va_entrypoints := some r.vaQueryConfigEntrypoints_list,
    va_num_entrypoints := r.vaQueryConfigEntrypoints_num,
    va_config_id := r.vaCreateConfig_id }) h

/-! ## A freshly configured pool -/

theorem surface_set_of_config {K : ImgFmt} {r : ConfigReplies} {format : Nat}
    {s0 s : VaState} (h : config_vaapi K r format s0 = (0, s)) :
    ∃ base, surface_set s = (List.range s.va_num_surfaces).map (SurfPtr.mk base) ∧
      s.va_free_surfaces = some ((surface_set s).map some) := by
  obtain ⟨base, -, hids, hfree, -⟩ := config_vaapi_ok h
  refine ⟨base, ?_, ?_⟩
  · simp [surface_set, hids]
  · rw [hfree]
    simp [surface_set, hids]

theorem surface_set_nodup {K : ImgFmt} {r : ConfigReplies} {format : Nat}
    {s0 s : VaState} (h : config_vaapi K r format s0 = (0, s)) :
    (surface_set s).Nodup := by
  obtain ⟨base, e, -⟩ := surface_set_of_config h
  rw [e]
  refine List.Nodup.map ?_ (List.nodup_range _)
  intro i j hij
  exact congrArg SurfPtr.index hij

theorem va_num_surfaces_pos {K : ImgFmt} {r : ConfigReplies} {format : Nat}
    {s0 s : VaState} (h : config_vaapi K r format s0 = (0, s)) :
    0 < s.va_num_surfaces := by
  obtain ⟨base, -, -, -, hn, hN, -⟩ := config_vaapi_ok h
  rw [hN]
  unfold FFMIN MAX_VIDEO_SURFACES
  split_ifs <;> omega

/-- After a first successful configuration (queue indices still 0) the free queue is a
ring holding the whole surface set in array order. -/
theorem ringShape_of_config {K : ImgFmt} {r : ConfigReplies} {format : Nat}
    {s0 s : VaState} (h : config_vaapi K r format s0 = (0, s))
    (hhead : s0.va_free_surfaces_head_index = 0)
    (htail : s0.va_free_surfaces_tail_index = 0) :
    RingShape s (surface_set s) := by
  obtain ⟨base, e, hfree⟩ := surface_set_of_config h
  have hpos := va_num_surfaces_pos h
  obtain ⟨-, -, -, -, -, -, hh, ht, -⟩ := config_vaapi_ok h
  have hlen : (surface_set s).length = s.va_num_surfaces := by simp [e]
  refine ⟨_, hfree, by simp [hlen], by omega, by omega, ?_, ?_⟩
  · rw [ht, htail, hh, hhead, hlen, Nat.zero_add, Nat.mod_self]
  · intro j hj
    rw [hh, hhead, Nat.zero_add, Nat.mod_eq_of_lt hj, List.getElem?_map]
    have : j < (surface_set s).length := by omega
    rw [List.getElem?_eq_getElem this]
    rfl

/-- On a ring holding `hs ++ rem`, as many indirect calls without previous surface as
`hs` has handles all return, handing out `hs` in order. -/
theorem get_surfaces_pops :
    ∀ (hs : List SurfPtr) (calls : List (AttrReply × mp_image_t)) (s : VaState)
      (rem : List SurfPtr), s.dm = 0 → RingShape s (hs ++ rem) →
      calls.length = hs.length → (∀ c ∈ calls, c.2.priv = none) →
      ∃ s1, get_surfaces s calls = .ok (hs.map some, s1) ∧ RingShape s1 rem ∧ s1.dm = 0
  | [], [], s, rem, hdm, hq, _, _ => ⟨s, rfl, hq, hdm⟩
  | [], _ :: _, _, _, _, _, hlen, _ => by simp at hlen
  | _ :: _, [], _, _, _, _, hlen, _ => by simp at hlen
  | x :: hs, (a, mpi) :: cs, s, rem, hdm, hq, hlen, hnull => by
    have hp : mpi.priv = none := hnull (a, mpi) (List.mem_cons_self _ _)
    obtain ⟨t, hpop, ht, -, -, htdm⟩ := pop_lru_surface_cons hq
    have hg : get_surface s a mpi = .ok (some x, t) := by
      rw [get_surface_indirect hdm, hp]
      exact hpop
    obtain ⟨s1, hrun, hs1, hd1⟩ := get_surfaces_pops hs cs t rem (by rw [htdm, hdm]) ht
      (by simpa using hlen) (fun c hc => hnull c (List.mem_cons_of_mem _ hc))
    exact ⟨s1, by simp [get_surfaces, hg, hrun], hs1, hd1⟩

/-- C2. On a pool configured for the first time (queue indices 0) under indirect policy
with `N` surfaces, `N` calls of `get_surface` without previous surface all return, handing
out the addresses of `va_surface_ids[0]`, ..., `va_surface_ids[N-1]` in this order, which
are pairwise different; every further call without previous surface aborts. -/
theorem fresh_pool_exhausts (K : ImgFmt) (r : ConfigReplies) (format : Nat)
    (s0 s : VaState) (calls : List (AttrReply × mp_image_t))
    (hcfg : config_vaapi K r format s0 = (0, s)) (hind : s.dm = 0)
    (hhead : s0.va_free_surfaces_head_index = 0)
    (htail : s0.va_free_surfaces_tail_index = 0)
    (hlen : calls.length = s.va_num_surfaces)
    (hnull : ∀ c ∈ calls, c.2.priv = none) :
    ∃ base s1,
      surface_set s = (List.range s.va_num_surfaces).map (SurfPtr.mk base) ∧
      (surface_set s).Nodup ∧
      get_surfaces s calls = .ok ((surface_set s).map some, s1) ∧
      ∀ a mpi, mpi.priv = none → get_surface s1 a mpi = .abort := by
  obtain ⟨base, e, -⟩ := surface_set_of_config hcfg
  have hq := ringShape_of_config hcfg hhead htail
  have hl : calls.length = (surface_set s).length := by simp [e, hlen]
  obtain ⟨s1, hrun, hs1, hd1⟩ := get_surfaces_pops (surface_set s) calls s [] hind
    (by simpa using hq) hl hnull
  refine ⟨base, s1, e, surface_set_nodup hcfg, hrun, ?_⟩
  intro a mpi hp
  rw [get_surface_indirect hd1, hp]
  exact pop_lru_surface_nil hs1

/-- Witness of C2: a first MPEG2 configuration with `dm=0` has six surfaces; six calls
without previous surface return them in order and the seventh aborts. -/
theorem fresh_pool_exhausts_witness :
    config_vaapi mplayerImgFmt (demoReplies 1) mplayerImgFmt.IMGFMT_VAAPI_MPEG2
        (demoStart 0) = (0, demoIndirect) ∧
      demoIndirect.va_num_surfaces = 6 ∧
      ∃ base s1,
        surface_set demoIndirect
          = (List.range demoIndirect.va_num_surfaces).map (SurfPtr.mk base) ∧
        (surface_set demoIndirect).Nodup ∧
        get_surfaces demoIndirect (List.replicate 6 (image 0 none))
          = .ok ((surface_set demoIndirect).map some, s1) ∧
        ∀ a mpi, mpi.priv = none → get_surface s1 a mpi = .abort :=
  ⟨by decide, by decide,
    fresh_pool_exhausts mplayerImgFmt (demoReplies 1) mplayerImgFmt.IMGFMT_VAAPI_MPEG2
      (demoStart 0) demoIndirect (List.replicate 6 (image 0 none)) (by decide) (by decide)
      (by decide) (by decide) (by decide) (by decide)⟩

/-! ## Direct mapping -/

/-- The direct path of `get_surface` for a call on which `is_direct_mapping` does not
answer 0. -/
theorem get_surface_of_direct {s : VaState} {a : AttrReply} (mpi : mp_image_t)
    (hdir : (is_direct_mapping s a).1 ≠ 0) :
    get_surface s a mpi = direct_surface (is_direct_mapping s a).2 mpi.number := by
  simp [get_surface, hdir]

/-- C7. Under direct policy, within one configuration, `get_surface` returns the address
of `va_surface_ids[i]` for every image number `i` below the surface count, whatever the
previous surface of the image is, and leaves the whole state (free-slot array, head and
tail indices included) unchanged; so every call for the same `i` returns the same handle. -/
theorem direct_get_surface (K : ImgFmt) (r : ConfigReplies) (format : Nat)
    (s0 s : VaState) (i : Nat) (hcfg : config_vaapi K r format s0 = (0, s))
    (hdir : s.dm ≠ 0) (hi : i < s.va_num_surfaces) :
    ∃ base, s.va_surface_ids.map SurfArray.base = some base ∧
      ∀ (a : AttrReply) (mpi : mp_image_t), mpi.number = i →
        get_surface s a mpi = .ok (some ⟨base, i⟩, s) := by
  obtain ⟨base, -, hids, hfree, -, -, -, -, -, -, hc⟩ := config_vaapi_ok hcfg
  refine ⟨base, by simp [hids], ?_⟩
  intro a mpi hnum
  have hdm := is_direct_mapping_of_cached hc a
  rw [get_surface_of_direct mpi (by rw [hdm]; exact hdir), hdm, hnum]
  simp [direct_surface, hi, hfree]

/-- Witness of C7: in the direct H264 configuration, image number 3 gets the address of
`va_surface_ids[3]`, with or without a previous surface, and the state stays as it is. -/
theorem direct_get_surface_witness :
    config_vaapi mplayerImgFmt (demoReplies 0) mplayerImgFmt.IMGFMT_VAAPI_H264
        (demoStart 2) = (0, demoDirect) ∧
      demoDirect.dm ≠ 0 ∧ 3 < demoDirect.va_num_surfaces ∧
      get_surface demoDirect ⟨0, 0⟩ ⟨3, none, 0⟩ = .ok (some (demoSurface 3), demoDirect) ∧
      get_surface demoDirect ⟨0, 0⟩ ⟨3, some (demoSurface 7), 0⟩
        = .ok (some (demoSurface 3), demoDirect) ∧
      ∃ base, demoDirect.va_surface_ids.map SurfArray.base = some base ∧
        ∀ (a : AttrReply) (mpi : mp_image_t), mpi.number = (3 : Nat) →
          get_surface demoDirect a mpi = .ok (some ⟨base, 3⟩, demoDirect) :=
  ⟨by decide, by decide, by decide, by decide, by decide,
    direct_get_surface mplayerImgFmt (demoReplies 0) mplayerImgFmt.IMGFMT_VAAPI_H264
      (demoStart 2) demoDirect 3 (by decide) (by decide) (by decide)⟩

/-- C8, as stated, fails for a negative image number: in the direct H264 configuration
(seventeen surfaces) the number -1 is no valid index, yet the assertion of `get_surface`
lets it pass; the call does not abort but reads in front of the free-slot array. -/
theorem direct_get_surface_negative_number :
    (is_direct_mapping demoDirect ⟨0, 0⟩).1 ≠ 0 ∧
      ¬ (0 ≤ (-1 : Int) ∧ (-1 : Int) < demoDirect.va_num_surfaces) ∧
      get_surface demoDirect ⟨0, 0⟩ ⟨-1, none, 0⟩ ≠ .abort ∧
      get_surface demoDirect ⟨0, 0⟩ ⟨-1, none, 0⟩ = .undefined := by
  decide

/-- C8, amended. Under direct policy `get_surface` stops at its assertion, returning no
handle, whenever the image number is at least the surface count. -/
theorem direct_get_surface_beyond_count (s : VaState) (a : AttrReply) (mpi : mp_image_t)
    (hdir : (is_direct_mapping s a).1 ≠ 0)
    (hnum : (s.va_num_surfaces : Int) ≤ mpi.number) :
    get_surface s a mpi = .abort := by
  rw [get_surface_of_direct mpi hdir]
  have hN : (is_direct_mapping s a).2.va_num_surfaces = s.va_num_surfaces := by
    rw [is_direct_mapping_frame]
  unfold direct_surface
  rw [hN, if_neg (by omega)]

/-- Witness of C8, amended: image number 17 in the direct configuration with seventeen
surfaces. -/
theorem direct_get_surface_beyond_count_witness :
    (is_direct_mapping demoDirect ⟨0, 0⟩).1 ≠ 0 ∧
      (demoDirect.va_num_surfaces : Int) ≤ 17 ∧
      get_surface demoDirect ⟨0, 0⟩ ⟨17, none, 0⟩ = .abort :=
  ⟨by decide, by decide,
    direct_get_surface_beyond_count demoDirect ⟨0, 0⟩ ⟨17, none, 0⟩ (by decide) (by decide)⟩

/-! ## Pool sizing -/

/-- C9. The surface count of a successful configuration follows the table: the count of
the codec family is 3 for MPEG2, MPEG4 and VC1 and 17 for H264; under direct policy the
pool has that many surfaces, under indirect policy twice as many but at most 21; hence
3 and 6 for MPEG2 (as for MPEG4 and VC1), 17 and 21 for H264. -/
theorem pool_sizing (K : ImgFmt) (r : ConfigReplies) (format : Nat) (s0 s : VaState)
    (hK : K.CodecLabelsDistinct) (hcfg : config_vaapi K r format s0 = (0, s)) :
    (K.IMGFMT_VAAPI_CODEC format = K.IMGFMT_VAAPI_CODEC_MPEG2 ∨
        K.IMGFMT_VAAPI_CODEC format = K.IMGFMT_VAAPI_CODEC_MPEG4 ∨
        K.IMGFMT_VAAPI_CODEC format = K.IMGFMT_VAAPI_CODEC_VC1 →
        num_video_surfaces K format = 3 ∧
        (s.dm ≠ 0 → s.va_num_surfaces = 3) ∧ (s.dm = 0 → s.va_num_surfaces = 6)) ∧
      (K.IMGFMT_VAAPI_CODEC format = K.IMGFMT_VAAPI_CODEC_H264 →
        num_video_surfaces K format = 17 ∧
        (s.dm ≠ 0 → s.va_num_surfaces = 17) ∧ (s.dm = 0 → s.va_num_surfaces = 21)) ∧
      (s.dm ≠ 0 → s.va_num_surfaces = num_video_surfaces K format) ∧
      (s.dm = 0 → s.va_num_surfaces = min (2 * num_video_surfaces K format) 21) := by
  obtain ⟨-, -, -, -, -, hN, -⟩ := config_vaapi_ok hcfg
  obtain ⟨h12, h13, h14, h23, h24, h34⟩ := hK
  have hgen : (s.dm ≠ 0 → s.va_num_surfaces = num_video_surfaces K format) ∧
      (s.dm = 0 → s.va_num_surfaces = min (2 * num_video_surfaces K format) 21) := by
    constructor
    · intro hd
      rw [hN, if_neg hd]
    · intro hd
      rw [hN, if_pos hd]
      unfold FFMIN MAX_VIDEO_SURFACES
      split_ifs <;> omega
  have h3 : K.IMGFMT_VAAPI_CODEC format = K.IMGFMT_VAAPI_CODEC_MPEG2 ∨
      K.IMGFMT_VAAPI_CODEC format = K.IMGFMT_VAAPI_CODEC_MPEG4 ∨
      K.IMGFMT_VAAPI_CODEC format = K.IMGFMT_VAAPI_CODEC_VC1 →
      num_video_surfaces K format = 3 := by
    intro hc
    unfold num_video_surfaces NUM_VIDEO_SURFACES_MPEG2 NUM_VIDEO_SURFACES_MPEG4
      NUM_VIDEO_SURFACES_H264 NUM_VIDEO_SURFACES_VC1
    rcases hc with hc | hc | hc <;> rw [hc] <;> simp [h12.symm, h13.symm, h14.symm,
      h23.symm, h24.symm, h34.symm]
  have h17 : K.IMGFMT_VAAPI_CODEC format = K.IMGFMT_VAAPI_CODEC_H264 →
      num_video_surfaces K format = 17 := by
    intro hc
    unfold num_video_surfaces NUM_VIDEO_SURFACES_MPEG2 NUM_VIDEO_SURFACES_MPEG4
      NUM_VIDEO_SURFACES_H264 NUM_VIDEO_SURFACES_VC1
    rw [hc]
    simp [h13.symm, h23.symm]
  refine ⟨fun hc => ⟨h3 hc, ?_, ?_⟩, fun hc => ⟨h17 hc, ?_, ?_⟩, hgen⟩
  · intro hd
    rw [hgen.1 hd, h3 hc]
  · intro hd
    rw [hgen.2 hd, h3 hc]
    rfl
  · intro hd
    rw [hgen.1 hd, h17 hc]
  · intro hd
    rw [hgen.2 hd, h17 hc]
    rfl

/-- Witness of C9: the H264 configuration under indirect policy (`dm=0`) succeeds and
has 21 surfaces. -/
theorem pool_sizing_witness :
    mplayerImgFmt.CodecLabelsDistinct ∧
      config_vaapi mplayerImgFmt (demoReplies 1) mplayerImgFmt.IMGFMT_VAAPI_H264
        (demoStart 0)
        = (0, (config_vaapi mplayerImgFmt (demoReplies 1) mplayerImgFmt.IMGFMT_VAAPI_H264
            (demoStart 0)).2) ∧
      (config_vaapi mplayerImgFmt (demoReplies 1) mplayerImgFmt.IMGFMT_VAAPI_H264
          (demoStart 0)).2.va_num_surfaces = 21 :=
  ⟨by decide, by decide,
    ((pool_sizing mplayerImgFmt (demoReplies 1) mplayerImgFmt.IMGFMT_VAAPI_H264
      (demoStart 0) _ (by decide) (by decide)).2.1 (by decide)).2.2 (by decide)⟩

/-- The four table entries on the demonstration driver: MPEG2 gives 3 surfaces under
direct and 6 under indirect policy, H264 gives 17 and 21. -/
theorem pool_sizing_table :
    (config_vaapi mplayerImgFmt (demoReplies 0) mplayerImgFmt.IMGFMT_VAAPI_MPEG2
        (demoStart 1)).2.va_num_surfaces = 3 ∧
      (config_vaapi mplayerImgFmt (demoReplies 0) mplayerImgFmt.IMGFMT_VAAPI_MPEG2
        (demoStart 0)).2.va_num_surfaces = 6 ∧
      (config_vaapi mplayerImgFmt (demoReplies 0) mplayerImgFmt.IMGFMT_VAAPI_H264
        (demoStart 1)).2.va_num_surfaces = 17 ∧
      (config_vaapi mplayerImgFmt (demoReplies 0) mplayerImgFmt.IMGFMT_VAAPI_H264
        (demoStart 0)).2.va_num_surfaces = 21 := by
  decide

/-- C10. For a format whose codec family is none of MPEG2, MPEG4, H264 and VC1,
`config_vaapi` returns -1 and leaves the state as it found it, whatever the mapping
policy and the driver replies: it creates neither a surface array nor a free queue. -/
theorem config_vaapi_unknown_codec (K : ImgFmt) (r : ConfigReplies) (format : Nat)
    (s : VaState)
    (h2 : K.IMGFMT_VAAPI_CODEC format ≠ K.IMGFMT_VAAPI_CODEC_MPEG2)
    (h4 : K.IMGFMT_VAAPI_CODEC format ≠ K.IMGFMT_VAAPI_CODEC_MPEG4)
    (h264 : K.IMGFMT_VAAPI_CODEC format ≠ K.IMGFMT_VAAPI_CODEC_H264)
    (hvc1 : K.IMGFMT_VAAPI_CODEC format ≠ K.IMGFMT_VAAPI_CODEC_VC1) :
    config_vaapi K r format s = (-1, s) ∧
      (config_vaapi K r format s).2.va_surface_ids = s.va_surface_ids ∧
      (config_vaapi K r format s).2.va_free_surfaces = s.va_free_surfaces := by
  have h : config_vaapi K r format s = (-1, s) := by
    have hp : VAProfile_from_imgfmt K s format = -1 := by
      simp [VAProfile_from_imgfmt, profiles_of_imgfmt, h2, h4, h264, hvc1]
    unfold config_vaapi
    simp only [hp]
    rfl
  rw [h]
  exact ⟨rfl, rfl, rfl⟩

/-- Witness of C10: a VA API format of codec family `0x50` is refused on the
unconfigured module, which stays without surface array and free queue. -/
theorem config_vaapi_unknown_codec_witness :
    mplayerImgFmt.IMGFMT_VAAPI_CODEC 0x56410050 ≠ mplayerImgFmt.IMGFMT_VAAPI_CODEC_MPEG2 ∧
      (config_vaapi mplayerImgFmt (demoReplies 0) 0x56410050 (demoStart 2)
          = (-1, demoStart 2) ∧
        (config_vaapi mplayerImgFmt (demoReplies 0) 0x56410050 (demoStart 2)).2.va_surface_ids
          = (demoStart 2).va_surface_ids ∧
        (config_vaapi mplayerImgFmt (demoReplies 0) 0x56410050
            (demoStart 2)).2.va_free_surfaces
          = (demoStart 2).va_free_surfaces) ∧
      (demoStart 2).va_surface_ids = none ∧ (demoStart 2).va_free_surfaces = none :=
  ⟨by decide,
    config_vaapi_unknown_codec mplayerImgFmt (demoReplies 0) 0x56410050 (demoStart 2)
      (by decide) (by decide) (by decide) (by decide),
    rfl, rfl⟩

/-! ## Handles in the queue and handles held -/

theorem reduceOption_map_some {α : Type} (l : List α) : (l.map some).reduceOption = l := by
  induction l with
  | nil => rfl
  | cons x l ih => rw [List.map_cons, List.reduceOption_cons_of_some, ih]

/-- What a returning indirect `get_surface` does to the handles of the free queue: the
previous surface joins them, the handle returned leaves them; nothing else changes but
the free-slot array and the queue indices. -/
theorem get_surface_handles {s s1 : VaState} {a : AttrReply} {mpi : mp_image_t}
    {r : Option SurfPtr} (hdm : s.dm = 0) (h : get_surface s a mpi = .ok (r, s1)) :
    ∃ x, r = some x ∧
      (mpi.priv.toList ++ free_queue_handles s).Perm (x :: free_queue_handles s1) ∧
      s1.dm = 0 ∧ s1.va_surface_ids = s.va_surface_ids ∧
      s1.g_output_surfaces = s.g_output_surfaces ∧
      s1.g_output_surface = s.g_output_surface := by
  rw [get_surface_indirect hdm] at h
  have hpop : ∀ {t : VaState}, pop_lru_surface t = .ok (r, s1) →
      ∃ x, r = some x ∧ (free_queue_handles t).Perm (x :: free_queue_handles s1) ∧
        s1.dm = t.dm ∧ s1.va_surface_ids = t.va_surface_ids ∧
        s1.g_output_surfaces = t.g_output_surfaces ∧
        s1.g_output_surface = t.g_output_surface := by
    intro t ht
    obtain ⟨x, hx, hperm⟩ := pop_lru_surface_handles ht
    obtain ⟨arr, y, -, -, -, e⟩ := pop_lru_surface_ok ht
    subst e
    exact ⟨x, hx, hperm, rfl, rfl, rfl, rfl⟩
  cases hp : mpi.priv with
  | none =>
    rw [hp] at h
    obtain ⟨x, hx, hperm, hd, hids, hr1, hr2⟩ := hpop h
    exact ⟨x, hx, by simpa using hperm, by rw [hd, hdm], hids, hr1, hr2⟩
  | some p =>
    rw [hp] at h
    cases hpush : push_current_surface s p with
    | abort => simp [hpush] at h
    | undefined => simp [hpush] at h
    | ok t =>
      simp only [hpush] at h
      obtain ⟨x, hx, hperm, hd, hids, hr1, hr2⟩ := hpop h
      have hq := push_current_surface_handles hpush
      obtain ⟨arr, -, -, e⟩ := push_current_surface_ok hpush
      subst e
      exact ⟨x, hx, by simpa using hq.symm.trans hperm, by rw [hd]; exact hdm,
        hids, hr1, hr2⟩

theorem surface_set_congr {s t : VaState} (h : s.va_surface_ids = t.va_surface_ids) :
    surface_set s = surface_set t := by
  unfold surface_set
  rw [h]

theorem surface_id_congr {s t : VaState} (h : s.va_surface_ids = t.va_surface_ids)
    (p : SurfPtr) : surface_id s p = surface_id t p := by
  unfold surface_id
  rw [h]

/-- The handles held after a call, next to the ones held before. -/
theorem held_after_perm {held : List SurfPtr} {priv : Option SurfPtr} (r : SurfPtr)
    (h : ∀ p, priv = some p → p ∈ held) :
    (priv.toList ++ held_after held priv r).Perm (r :: held) := by
  cases priv with
  | none => exact List.Perm.refl _
  | some p =>
    have hp := List.perm_cons_erase (h p rfl)
    show (p :: r :: held.erase p).Perm (r :: held)
    exact (List.Perm.swap r p _).trans (hp.symm.cons r)

/-- One returning indirect `get_surface` call keeps the handles of the queue and the
handles held a rearrangement of the same list. -/
theorem get_surface_partition {s s1 : VaState} {a : AttrReply} {mpi : mp_image_t}
    {r : SurfPtr} {held all : List SurfPtr} (hdm : s.dm = 0)
    (hpriv : ∀ p, mpi.priv = some p → p ∈ held)
    (h : get_surface s a mpi = .ok (some r, s1))
    (hinv : (free_queue_handles s ++ held).Perm all) :
    (free_queue_handles s1 ++ held_after held mpi.priv r).Perm all := by
  obtain ⟨x, hx, hperm, -⟩ := get_surface_handles hdm h
  cases hx
  have hheld := held_after_perm r hpriv
  refine List.Perm.trans ?_ hinv
  have h1 : (mpi.priv.toList ++ (free_queue_handles s1 ++ held_after held mpi.priv r)).Perm
      (mpi.priv.toList ++ (free_queue_handles s ++ held)) := by
    calc (mpi.priv.toList ++ (free_queue_handles s1 ++ held_after held mpi.priv r)).Perm
          (free_queue_handles s1 ++ (mpi.priv.toList ++ held_after held mpi.priv r)) := by
            rw [← List.append_assoc, ← List.append_assoc]
            exact List.Perm.append_right _ List.perm_append_comm
      _ |>.Perm (free_queue_handles s1 ++ (r :: held)) := List.Perm.append_left _ hheld
      _ |>.Perm ((r :: free_queue_handles s1) ++ held) := by
            exact List.perm_middle
      _ |>.Perm ((mpi.priv.toList ++ free_queue_handles s) ++ held) :=
            List.Perm.append_right _ hperm.symm
      _ |>.Perm (mpi.priv.toList ++ (free_queue_handles s ++ held)) := by
            rw [List.append_assoc]
  exact (List.perm_append_left_iff _).mp h1

/-- In every state reached from an indirect pool `s0` whose free queue holds `all`, the
policy and the surface array are those of `s0`, and the handles in the free queue
together with the handles held are a rearrangement of `all`. -/
theorem poolReach_partition {s0 s : VaState} {held all : List SurfPtr}
    (hind : s0.dm = 0) (hall : (free_queue_handles s0).Perm all)
    (hreach : PoolReach s0 s held) :
    s.dm = 0 ∧ s.va_surface_ids = s0.va_surface_ids ∧
      (free_queue_handles s ++ held).Perm all := by
  induction hreach with
  | fresh => exact ⟨hind, rfl, by simpa using hall⟩
  | acquire _ hpriv hget ih =>
    obtain ⟨hd, hids, hperm⟩ := ih
    obtain ⟨x, -, -, hd1, hids1, -⟩ := get_surface_handles hd hget
    exact ⟨hd1, hids1.trans hids, get_surface_partition hd hpriv hget hperm⟩
  | publish mpi _ ih => exact ih
  | present _ ih => exact ih

/-- The free queue of a freshly configured pool holds the surface set. -/
theorem free_queue_handles_of_config {K : ImgFmt} {r : ConfigReplies} {format : Nat}
    {s00 s0 : VaState} (h : config_vaapi K r format s00 = (0, s0)) :
    free_queue_handles s0 = surface_set s0 := by
  obtain ⟨base, -, hfree⟩ := surface_set_of_config h
  rw [free_queue_handles, hfree, Option.getD_some, reduceOption_map_some]

/-- C5. In every state reached from a fresh indirect configuration by returning
`get_surface` calls whose non-null previous surfaces are handles held at the time of the
call (interleaved with any `draw_image` and `flip_page` calls), no handle occurs twice in
the free queue, the surface set consists of exactly the handles in the free queue and the
handles held, and no handle is in both. -/
theorem pool_partition (K : ImgFmt) (r : ConfigReplies) (format : Nat)
    (s00 s0 s : VaState) (held : List SurfPtr)
    (hcfg : config_vaapi K r format s00 = (0, s0)) (hind : s0.dm = 0)
    (hreach : PoolReach s0 s held) :
    (free_queue_handles s).Nodup ∧ held.Nodup ∧
      (∀ p, p ∈ surface_set s ↔ p ∈ free_queue_handles s ∨ p ∈ held) ∧
      (∀ p, p ∈ free_queue_handles s → p ∉ held) := by
  obtain ⟨-, hids, hperm⟩ := poolReach_partition hind
    (by rw [free_queue_handles_of_config hcfg]) hreach
  have hnd : (free_queue_handles s ++ held).Nodup :=
    hperm.nodup_iff.mpr (surface_set_nodup hcfg)
  rw [List.nodup_append] at hnd
  obtain ⟨h1, h2, h3⟩ := hnd
  refine ⟨h1, h2, ?_, ?_⟩
  · intro p
    rw [surface_set_congr hids, ← hperm.mem_iff, List.mem_append]
  · intro p hq hh
    exact h3 hq hh

/-- A run on the demonstration pool: surface 0 is taken, drawn and shown, and then given
back by the call that receives surface 1. -/
theorem demoRecycled_reach : PoolReach demoIndirect demoRecycled [demoSurface 1] := by
  have h1 : PoolReach demoIndirect demoTaken (held_after [] none (demoSurface 0)) :=
    PoolReach.acquire PoolReach.fresh (by intro p h; cases h)
      (by decide : get_surface demoIndirect ⟨0, 0⟩ ⟨0, none, 0⟩
        = .ok (some (demoSurface 0), demoTaken))
  have h2 := PoolReach.present (PoolReach.publish ⟨0, some (demoSurface 0), 100⟩ h1)
  have h3 := PoolReach.acquire h2 (by decide)
    (by decide : get_surface
        (flip_page (draw_image demoTaken ⟨0, some (demoSurface 0), 100⟩)).2 ⟨0, 0⟩
        ⟨0, some (demoSurface 0), 100⟩ = .ok (some (demoSurface 1), demoRecycled))
  exact h3

/-- Witness of C5: after the run `demoRecycled_reach` the caller holds surface 1 and the
queue holds the other five surfaces. -/
theorem pool_partition_witness :
    config_vaapi mplayerImgFmt (demoReplies 1) mplayerImgFmt.IMGFMT_VAAPI_MPEG2
        (demoStart 0) = (0, demoIndirect) ∧
      demoIndirect.dm = 0 ∧ PoolReach demoIndirect demoRecycled [demoSurface 1] ∧
      free_queue_handles demoRecycled
        = [demoSurface 0, demoSurface 2, demoSurface 3, demoSurface 4, demoSurface 5] ∧
      ((free_queue_handles demoRecycled).Nodup ∧ [demoSurface 1].Nodup ∧
        (∀ p, p ∈ surface_set demoRecycled ↔
          p ∈ free_queue_handles demoRecycled ∨ p ∈ [demoSurface 1]) ∧
        (∀ p, p ∈ free_queue_handles demoRecycled → p ∉ [demoSurface 1])) :=
  ⟨by decide, by decide, demoRecycled_reach, by decide,
    pool_partition mplayerImgFmt (demoReplies 1) mplayerImgFmt.IMGFMT_VAAPI_MPEG2
      (demoStart 0) demoIndirect demoRecycled [demoSurface 1] (by decide) (by decide)
      demoRecycled_reach⟩

/-! ## The free queue and the output ring -/

/-- C6, as stated, fails: on a fresh indirect MPEG2 pool the caller takes surface 0
(id 100), draws and shows it, and then passes it back as the previous surface of the
image, which it holds. Surface 0 is now in the free queue while slot 0 of the output
ring still holds its id. -/
theorem queue_meets_ring_reachable :
    config_vaapi mplayerImgFmt (demoReplies 1) mplayerImgFmt.IMGFMT_VAAPI_MPEG2
        (demoStart 0) = (0, demoIndirect) ∧
      demoIndirect.dm = 0 ∧ PoolReach demoIndirect demoRecycled [demoSurface 1] ∧
      demoSurface 0 ∈ free_queue_handles demoRecycled ∧
      output_slot demoRecycled.g_output_surfaces 0 ≠ VA_INVALID_SURFACE ∧
      surface_id demoRecycled (demoSurface 0)
        = some (output_slot demoRecycled.g_output_surfaces 0) ∧
      queue_meets_ring demoRecycled :=
  ⟨by decide, by decide, demoRecycled_reach, by decide, by decide, by decide, by decide⟩

theorem retiredReach_poolReach {s0 s : VaState} {held : List SurfPtr}
    (h : RetiredReach s0 s held) : PoolReach s0 s held := by
  induction h with
  | fresh => exact PoolReach.fresh
  | acquire _ hpriv hget ih => exact PoolReach.acquire ih (fun p hp => (hpriv p hp).1) hget
  | publish mpi _ _ ih => exact PoolReach.publish mpi ih
  | present _ ih => exact PoolReach.present ih

theorem output_slot_set (ring : Nat × Nat) (c i : Fin 2) (v : Nat) :
    output_slot (set_output_slot ring c v) i = if i = c then v else output_slot ring i := by
  unfold output_slot set_output_slot
  fin_cases c <;> fin_cases i <;> simp

/-- Two handles that point to the same surface id are the same handle, when the ids of
the surface array are pairwise different. -/
theorem surface_id_inj {s : VaState} {arr : SurfArray} {p q : SurfPtr} {x : Nat}
    (ha : s.va_surface_ids = some arr) (hnd : arr.ids.Nodup)
    (hp : surface_id s p = some x) (hq : surface_id s q = some x) : p = q := by
  unfold surface_id at hp hq
  rw [ha] at hp hq
  simp only at hp hq
  split at hp
  · rename_i hpb
    split at hq
    · rename_i hqb
      have hlt : p.index < arr.ids.length := by
        obtain ⟨h, -⟩ := List.getElem?_eq_some.mp hp
        exact h
      have hi : p.index = q.index := List.getElem?_inj hlt hnd (hp.trans hq.symm)
      cases p
      cases q
      simp only [SurfPtr.mk.injEq]
      exact ⟨hpb.trans hqb.symm, hi⟩
    · cases hq
  · cases hp

/-- With a caller that gives back only surfaces that are in no slot of the output ring
and draws only surfaces it holds, no handle of the free queue points to a surface stored
in a non-empty slot of the output ring. Here `s0` is an indirect pool with an empty
output ring whose surface ids are pairwise different. -/
theorem retiredReach_avoids_ring {s0 s : VaState} {held all : List SurfPtr}
    {arr : SurfArray} (hind : s0.dm = 0) (hall : (free_queue_handles s0).Perm all)
    (hnd : all.Nodup) (ha : s0.va_surface_ids = some arr) (hids : arr.ids.Nodup)
    (hring : s0.g_output_surfaces = (VA_INVALID_SURFACE, VA_INVALID_SURFACE))
    (hreach : RetiredReach s0 s held) :
    ∀ p ∈ free_queue_handles s, ∀ i : Fin 2,
      output_slot s.g_output_surfaces i ≠ VA_INVALID_SURFACE →
      surface_id s p ≠ some (output_slot s.g_output_surfaces i) := by
  induction hreach with
  | fresh =>
    intro p _ i hi
    exfalso
    apply hi
    rw [hring]
    unfold output_slot
    split <;> rfl
  | @acquire s s1 held a mpi r hr hpriv hget ih =>
    obtain ⟨hd, -, -⟩ := poolReach_partition hind hall (retiredReach_poolReach hr)
    obtain ⟨x, -, hperm, -, hids1, hr1, hr2⟩ := get_surface_handles hd hget
    intro p hp i hi
    rw [hr1] at hi ⊢
    rw [surface_id_congr hids1]
    have hmem : p ∈ mpi.priv.toList ++ free_queue_handles s :=
      hperm.mem_iff.mpr (List.mem_cons_of_mem _ hp)
    rcases List.mem_append.mp hmem with h | h
    · have hpp : mpi.priv = some p := by
        cases hm : mpi.priv with
        | none => rw [hm] at h; cases h
        | some y =>
          rw [hm] at h
          simp only [Option.toList, List.mem_singleton] at h
          rw [h]
      exact (hpriv p hpp).2 i
    · exact ih p h i hi
  | @publish s held mpi hr hheld ih =>
    obtain ⟨-, hsid, hperm⟩ := poolReach_partition hind hall (retiredReach_poolReach hr)
    intro p hp i hi
    replace hp : p ∈ free_queue_handles s := hp
    show surface_id s p
      ≠ some (output_slot (set_output_slot s.g_output_surfaces s.g_output_surface
          (image_surface mpi)) i)
    replace hi : output_slot (set_output_slot s.g_output_surfaces s.g_output_surface
        (image_surface mpi)) i ≠ VA_INVALID_SURFACE := hi
    rw [output_slot_set] at hi ⊢
    split_ifs at hi ⊢ with hc
    · obtain ⟨q, hq, hqid⟩ := hheld
      intro hpid
      have hpq : p = q := surface_id_inj (hsid.trans ha) hids hpid hqid
      have hdis : (free_queue_handles s ++ held).Nodup := hperm.nodup_iff.mpr hnd
      rw [List.nodup_append] at hdis
      exact hdis.2.2 hp (hpq ▸ hq)
    · exact ih p hp i hi
  | present _ ih => exact ih

/-- C6, amended. In every state reached under indirect policy from a fresh configuration
whose surface ids are pairwise different, by `get_surface`, `draw_image` and `flip_page`
calls in which each previous surface passed to `get_surface` is a handle the caller holds
and whose surface is in no slot of the output ring at that moment, and each surface given
to `draw_image` is the surface of a handle the caller holds, the free queue contains no
handle whose surface is stored in a non-empty slot of the output ring. -/
theorem retired_queue_avoids_ring (K : ImgFmt) (r : ConfigReplies) (format : Nat)
    (s00 s0 s : VaState) (held : List SurfPtr)
    (hcfg : config_vaapi K r format s00 = (0, s0)) (hind : s0.dm = 0)
    (hids : ((List.range s0.va_num_surfaces).map r.vaCreateSurfaces_id).Nodup)
    (hreach : RetiredReach s0 s held) :
    ¬ queue_meets_ring s := by
  obtain ⟨base, -, ha, -, -, -, -, -, hring, -⟩ := config_vaapi_ok hcfg
  have h := retiredReach_avoids_ring hind
    (by rw [free_queue_handles_of_config hcfg]) (surface_set_nodup hcfg) ha hids hring hreach
  rintro ⟨p, hp, i, hi, hpid⟩
  exact h p hp i hi hpid

/-- A disciplined run on the demonstration pool: surface 0 is taken, drawn and shown. -/
theorem demoShown_reach :
    RetiredReach demoIndirect
      (flip_page (draw_image demoTaken ⟨0, some (demoSurface 0), 100⟩)).2
      [demoSurface 0] := by
  have h1 : RetiredReach demoIndirect demoTaken (held_after [] none (demoSurface 0)) :=
    RetiredReach.acquire RetiredReach.fresh (by intro p h; cases h)
      (by decide : get_surface demoIndirect ⟨0, 0⟩ ⟨0, none, 0⟩
        = .ok (some (demoSurface 0), demoTaken))
  exact RetiredReach.present
    (RetiredReach.publish ⟨0, some (demoSurface 0), 100⟩ h1 ⟨demoSurface 0, by decide⟩)

/-- Witness of C6, amended: after surface 0 has been taken, drawn and shown, it is in the
output ring and not in the free queue. -/
theorem retired_queue_avoids_ring_witness :
    config_vaapi mplayerImgFmt (demoReplies 1) mplayerImgFmt.IMGFMT_VAAPI_MPEG2
        (demoStart 0) = (0, demoIndirect) ∧
      demoIndirect.dm = 0 ∧
      ((List.range demoIndirect.va_num_surfaces).map
        (demoReplies 1).vaCreateSurfaces_id).Nodup ∧
      (flip_page (draw_image demoTaken ⟨0, some (demoSurface 0), 100⟩)).2.g_output_surfaces
        = (100, VA_INVALID_SURFACE) ∧
      ¬ queue_meets_ring (flip_page (draw_image demoTaken ⟨0, some (demoSurface 0), 100⟩)).2 :=
  ⟨by decide, by decide, by decide, by decide,
    retired_queue_avoids_ring mplayerImgFmt (demoReplies 1) mplayerImgFmt.IMGFMT_VAAPI_MPEG2
      (demoStart 0) demoIndirect _ [demoSurface 0] (by decide) (by decide) (by decide)
      demoShown_reach⟩

/-! ## Resolution of the mapping policy -/

/-- C11. Function `is_direct_mapping_init` resolves the policy as follows: with the `dm`
setting 0 it returns 0 (indirect) and with the setting 1 it returns 1 (direct), in both
cases whatever the service would answer and without asking it; with the setting 2 and a
successful attribute query it returns 0 (indirect) when the attribute value is non-zero
and 1 (direct) when the value is zero. -/
theorem is_direct_mapping_init_resolution (a : AttrReply) (value : Int) :
    is_direct_mapping_init 0 a = 0 ∧ is_direct_mapping_init 1 a = 1 ∧
      is_direct_mapping_init_queries 0 = false ∧
      is_direct_mapping_init_queries 1 = false ∧
      is_direct_mapping_init 2 ⟨VA_STATUS_SUCCESS, value⟩ = (if value ≠ 0 then 0 else 1) := by
  refine ⟨rfl, rfl, rfl, rfl, ?_⟩
  unfold is_direct_mapping_init
  by_cases h : value = 0 <;> simp [h]

/-- C12, as stated, fails: with the `dm` setting 2 and a failing attribute query
`is_direct_mapping_init` returns 0, which is the indirect policy, not the direct one; a
first MPEG2 configuration then gets the doubled surface count 6. -/
theorem is_direct_mapping_init_query_failure :
    (AttrReply.mk (-1) 0).status ≠ VA_STATUS_SUCCESS ∧
      is_direct_mapping_init 2 ⟨-1, 0⟩ = 0 ∧
      (is_direct_mapping (demoStart 2) ⟨-1, 0⟩).1 = 0 ∧
      (config_vaapi mplayerImgFmt { demoReplies 0 with vaGetDisplayAttributes := ⟨-1, 0⟩ }
        mplayerImgFmt.IMGFMT_VAAPI_MPEG2 (demoStart 2)).2.va_num_surfaces = 6 := by
  decide

/-- C12, amended. When the `dm` setting is 2 (automatic) and the attribute query fails,
`is_direct_mapping_init` returns 0: the policy resolves to indirect. -/
theorem is_direct_mapping_init_fallback (va_dm : Int) (a : AttrReply)
    (hauto : 2 ≤ va_dm) (hfail : a.status ≠ VA_STATUS_SUCCESS) :
    is_direct_mapping_init va_dm a = 0 := by
  unfold is_direct_mapping_init
  rw [if_neg (by omega), if_neg hfail]

/-- Witness of C12, amended: the setting 2 and a query that fails with status -1. -/
theorem is_direct_mapping_init_fallback_witness :
    (2 : Int) ≤ 2 ∧ (AttrReply.mk (-1) 5).status ≠ VA_STATUS_SUCCESS ∧
      is_direct_mapping_init 2 ⟨-1, 5⟩ = 0 :=
  ⟨by decide, by decide,
    is_direct_mapping_init_fallback 2 ⟨-1, 5⟩ (by decide) (by decide)⟩

/-- Once the cached policy is not negative, every later call returns it and none asks the
service, whatever the settings and replies are. -/
theorem is_direct_mapping_calls_cached :
    ∀ (calls : List (Int × AttrReply)) (t : VaState), 0 ≤ t.dm →
      (is_direct_mapping_calls t calls).1 = List.replicate calls.length t.dm ∧
      (is_direct_mapping_calls t calls).2.1 = 0
  | [], _, _ => ⟨rfl, rfl⟩
  | (v, a) :: rest, t, ht => by
    have h1 : is_direct_mapping { t with va_dm := v } a = (t.dm, { t with va_dm := v }) := by
      unfold is_direct_mapping
      rw [if_neg (by show ¬ t.dm < 0; omega)]
    have h2 : is_direct_mapping_queries { t with va_dm := v } = 0 := by
      unfold is_direct_mapping_queries
      rw [if_neg (by show ¬ t.dm < 0; omega)]
    obtain ⟨ih1, ih2⟩ := is_direct_mapping_calls_cached rest { t with va_dm := v } ht
    constructor
    · simp only [is_direct_mapping_calls, h1, ih1]
      rfl
    · simp only [is_direct_mapping_calls, h1, h2, ih2]

/-- With a valid `dm` setting `is_direct_mapping_init` returns 0 or 1. -/
theorem is_direct_mapping_init_nonneg (va_dm : Int) (a : AttrReply)
    (hopt : int_012 va_dm = true) : 0 ≤ is_direct_mapping_init va_dm a := by
  simp only [int_012, Bool.and_eq_true, decide_eq_true_eq] at hopt
  unfold is_direct_mapping_init
  split_ifs <;> omega

/-- C13. Policy resolution is memoized: in a sequence of `is_direct_mapping` calls whose
first call finds a valid `dm` setting (0, 1 or 2), every call returns the value the first
call returned, whatever the settings and service replies of the later calls are, and the
service is queried at most once. -/
theorem is_direct_mapping_memoized (s : VaState) (va_dm : Int) (a : AttrReply)
    (rest : List (Int × AttrReply)) (hopt : int_012 va_dm = true) :
    (∀ d ∈ (is_direct_mapping_calls s ((va_dm, a) :: rest)).1,
        d = (is_direct_mapping { s with va_dm := va_dm } a).1) ∧
      (is_direct_mapping_calls s ((va_dm, a) :: rest)).2.1 ≤ 1 := by
  have hnn : 0 ≤ (is_direct_mapping { s with va_dm := va_dm } a).2.dm := by
    rw [is_direct_mapping_dm]
    unfold is_direct_mapping
    split
    · exact is_direct_mapping_init_nonneg va_dm a hopt
    · rename_i h
      replace h : ¬ s.dm < 0 := h
      show 0 ≤ s.dm
      omega
  obtain ⟨h1, h2⟩ := is_direct_mapping_calls_cached rest _ hnn
  simp only [is_direct_mapping_calls, h1, h2]
  constructor
  · intro d hd
    rcases List.mem_cons.mp hd with h | h
    · exact h
    · rw [List.eq_of_mem_replicate h, is_direct_mapping_dm]
  · unfold is_direct_mapping_queries
    split_ifs <;> omega

/-- Witness of C13: three calls from program start. The first finds the setting 2 and a
driver that reports the value 0; the later ones find other settings and replies. All
three return 1, and the service is asked once. -/
theorem is_direct_mapping_memoized_witness :
    int_012 2 = true ∧
      is_direct_mapping_calls (demoStart 0) [(2, ⟨0, 0⟩), (0, ⟨0, 1⟩), (2, ⟨-1, 1⟩)]
        = ([1, 1, 1], 1,
            { demoStart 0 with va_dm := 2, dm := 1 }) ∧
      ((∀ d ∈ (is_direct_mapping_calls (demoStart 0)
            [(2, ⟨0, 0⟩), (0, ⟨0, 1⟩), (2, ⟨-1, 1⟩)]).1,
          d = (is_direct_mapping { demoStart 0 with va_dm := 2 } ⟨0, 0⟩).1) ∧
        (is_direct_mapping_calls (demoStart 0)
          [(2, ⟨0, 0⟩), (0, ⟨0, 1⟩), (2, ⟨-1, 1⟩)]).2.1 ≤ 1) :=
  ⟨by decide, by decide,
    is_direct_mapping_memoized (demoStart 0) 2 ⟨0, 0⟩ [(0, ⟨0, 1⟩), (2, ⟨-1, 1⟩)]
      (by decide)⟩

/-! ## Presentation -/

theorem output_slot_set_self (ring : Nat × Nat) (c : Fin 2) (v : Nat) :
    output_slot (set_output_slot ring c v) c = v := by
  rw [output_slot_set, if_pos rfl]

/-- C14. After `draw_image` for a surface X followed by `draw_image` for a valid surface
Y (the surface id taken from the image is not `VA_INVALID_SURFACE`), in whatever state
the ring was, the next `flip_page` presents Y and nothing else. -/
theorem flip_page_presents_last_drawn (s : VaState) (X Y : mp_image_t)
    (hY : image_surface Y ≠ VA_INVALID_SURFACE) :
    (flip_page (draw_image (draw_image s X) Y)).1 = [image_surface Y] := by
  simp only [flip_page, draw_image, output_slot_set_self, put_surface, hY, ne_eq,
    not_false_eq_true, if_true, if_false]

/-- Witness of C14: the surfaces 100 and 101 drawn on the fresh demonstration pool; the
second image carries the surface in a pointer whose upper half is not zero. -/
theorem flip_page_presents_last_drawn_witness :
    image_surface ⟨1, none, 0x100000065⟩ ≠ VA_INVALID_SURFACE ∧
      image_surface ⟨1, none, 0x100000065⟩ = 101 ∧
      (flip_page (draw_image (draw_image demoIndirect ⟨0, none, 100⟩)
        ⟨1, none, 0x100000065⟩)).1 = [image_surface ⟨1, none, 0x100000065⟩] :=
  ⟨by decide, by decide,
    flip_page_presents_last_drawn demoIndirect ⟨0, none, 100⟩ ⟨1, none, 0x100000065⟩
      (by decide)⟩

/-- After `draw_image` and `flip_page` the cursor stands on the slot that was not
written, and this is the slot an expose event presents while paused. -/
theorem check_events_presents_other_slot (s : VaState) (X : mp_image_t) :
    (check_events (control_pause (flip_page (draw_image s X)).2) ⟨false, true⟩).1
      = put_surface (output_slot s.g_output_surfaces (s.g_output_surface + 1)) := by
  obtain ⟨p, ring, c, ci, cx, pr, np, es, ne, ids, n, fr, h, t, vd, d⟩ := s
  have hput : ∀ v : Nat,
      (if v ≠ VA_INVALID_SURFACE then put_surface v else []) = put_surface v := by
    intro v
    unfold put_surface
    split_ifs <;> simp_all
  fin_cases c <;>
    simp [check_events, control_pause, flip_page, draw_image, hput, output_slot,
      set_output_slot, MAX_OUTPUT_SURFACES]

/-- C15 fails on the code. On the fresh demonstration pool surface 100 is drawn and
shown; after a pause an expose event presents nothing, because `flip_page` has moved the
cursor to the other slot, which is empty. When surface 101 is then drawn and shown as
well, an expose event while paused presents the older surface 100 instead of 101. -/
theorem check_events_misses_last_surface :
    (flip_page (draw_image demoIndirect ⟨0, none, 100⟩)).1 = [100] ∧
      (check_events (control_pause (flip_page (draw_image demoIndirect ⟨0, none, 100⟩)).2)
        ⟨false, true⟩).1 = [] ∧
      (flip_page (draw_image (flip_page (draw_image demoIndirect ⟨0, none, 100⟩)).2
        ⟨1, none, 101⟩)).1 = [101] ∧
      (check_events (control_pause (flip_page (draw_image
        (flip_page (draw_image demoIndirect ⟨0, none, 100⟩)).2 ⟨1, none, 101⟩)).2)
        ⟨false, true⟩).1 = [100] := by
  decide

/-- C16, as stated, fails for the cursor: on the fresh demonstration pool the slot
`flip_page` reads is empty, no surface is presented and both slots stay empty, but the
cursor has moved from slot 0 to slot 1. -/
theorem flip_page_empty_moves_cursor :
    output_slot demoIndirect.g_output_surfaces demoIndirect.g_output_surface
        = VA_INVALID_SURFACE ∧
      (flip_page demoIndirect).1 = [] ∧
      (flip_page demoIndirect).2.g_output_surfaces = demoIndirect.g_output_surfaces ∧
      demoIndirect.g_output_surface = 0 ∧
      (flip_page demoIndirect).2.g_output_surface = 1 := by
  decide

/-- C16, amended. When the slot `flip_page` reads holds `VA_INVALID_SURFACE`,
`flip_page` presents nothing and leaves both slots of the output ring (and everything
else but the cursor) unchanged; the cursor moves on to the other slot, as in every
`flip_page` call. -/
theorem flip_page_empty_slot (s : VaState)
    (hempty : output_slot s.g_output_surfaces s.g_output_surface = VA_INVALID_SURFACE) :
    (flip_page s).1 = [] ∧
      (flip_page s).2 = { s with g_output_surface := s.g_output_surface + 1 } := by
  constructor
  · simp [flip_page, hempty]
  · obtain ⟨p, ring, c, ci, cx, pr, np, es, ne, ids, n, fr, h, t, vd, d⟩ := s
    fin_cases c <;> simp [flip_page, MAX_OUTPUT_SURFACES]

/-- Witness of C16, amended: `flip_page` on the fresh demonstration pool. -/
theorem flip_page_empty_slot_witness :
    output_slot demoIndirect.g_output_surfaces demoIndirect.g_output_surface
        = VA_INVALID_SURFACE ∧
      (flip_page demoIndirect).1 = [] ∧
      (flip_page demoIndirect).2
        = { demoIndirect with g_output_surface := demoIndirect.g_output_surface + 1 } :=
  ⟨by decide, flip_page_empty_slot demoIndirect (by decide)⟩

/-! ## Reconfiguration -/

theorem surface_id_of_config {K : ImgFmt} {r : ConfigReplies} {format : Nat}
    {s0 s : VaState} {base : Nat} (h : config_vaapi K r format s0 = (0, s))
    (hb : r.calloc_surface_ids = some base) {i : Nat} (hi : i < s.va_num_surfaces) :
    surface_id s ⟨base, i⟩ = some (r.vaCreateSurfaces_id i) := by
  obtain ⟨base1, hb1, hids, -⟩ := config_vaapi_ok h
  rw [hb] at hb1
  cases hb1
  simp [surface_id, hids, hi]

/-- Function `config_vaapi` never assigns the queue indices, whether it succeeds or not. -/
theorem config_vaapi_keeps_indices (K : ImgFmt) (r : ConfigReplies) (format : Nat)
    (s : VaState) :
    (config_vaapi K r format s).2.va_free_surfaces_head_index
        = s.va_free_surfaces_head_index ∧
      (config_vaapi K r format s).2.va_free_surfaces_tail_index
        = s.va_free_surfaces_tail_index := by
  have hsurf : ∀ t : VaState,
      (config_vaapi_surfaces r t).2.va_free_surfaces_head_index
          = t.va_free_surfaces_head_index ∧
        (config_vaapi_surfaces r t).2.va_free_surfaces_tail_index
          = t.va_free_surfaces_tail_index := by
    intro t
    unfold config_vaapi_surfaces
    split
    · exact ⟨rfl, rfl⟩
    · simp only
      split_ifs <;> exact ⟨rfl, rfl⟩
  have hsize : ∀ t : VaState,
      (config_vaapi_sizing K r format t).2.va_free_surfaces_head_index
          = t.va_free_surfaces_head_index ∧
        (config_vaapi_sizing K r format t).2.va_free_surfaces_tail_index
          = t.va_free_surfaces_tail_index := by
    intro t
    unfold config_vaapi_sizing
    simp only
    split
    · exact ⟨rfl, rfl⟩
    · obtain ⟨h1, h2⟩ := hsurf
        { (is_direct_mapping { t with va_num_surfaces := num_video_surfaces K format }
            r.vaGetDisplayAttributes).2 with
          va_num_surfaces :=
            if (is_direct_mapping { t with va_num_surfaces := num_video_surfaces K format }
                r.vaGetDisplayAttributes).1 = 0 then
              FFMIN (2 * (is_direct_mapping
                { t with va_num_surfaces := num_video_surfaces K format }
                r.vaGetDisplayAttributes).2.va_num_surfaces) MAX_VIDEO_SURFACES
            else (is_direct_mapping
                { t with va_num_surfaces := num_video_surfaces K format }
                r.vaGetDisplayAttributes).2.va_num_surfaces }
      rw [h1, h2]
      constructor
      · show (is_direct_mapping _ _).2.va_free_surfaces_head_index = _
        rw [is_direct_mapping_frame]
      · show (is_direct_mapping _ _).2.va_free_surfaces_tail_index = _
        rw [is_direct_mapping_frame]
  unfold config_vaapi
  simp only
  split_ifs
  all_goals first
    | exact ⟨rfl, rfl⟩
    | exact hsize _

/-- Function `config` never assigns the queue indices either. -/
theorem config_keeps_indices (K : ImgFmt) (w : WindowReplies) (r : ConfigReplies)
    (format : Nat) (s : VaState) :
    (config K w r format s).2.va_free_surfaces_head_index
        = s.va_free_surfaces_head_index ∧
      (config K w r format s).2.va_free_surfaces_tail_index
        = s.va_free_surfaces_tail_index := by
  have h := config_vaapi_keeps_indices K r format (free_video_specific s)
  unfold config
  simp only
  split_ifs
  · exact ⟨rfl, rfl⟩
  · exact ⟨rfl, rfl⟩
  · exact h
  · exact h

/-- C18 fails on the code. An H264 pool under indirect policy has 21 surfaces; after ten
`get_surface` calls its head index is 10. Configuring for MPEG2 succeeds and builds a
free-slot array of 6 entries, but the head index is still 10, which is no index of the
new array; the next `get_surface` call reads outside the array. -/
theorem queue_indices_survive_reconfiguration :
    config_vaapi mplayerImgFmt (demoReplies 1) mplayerImgFmt.IMGFMT_VAAPI_H264 (demoStart 0)
        = (0, demoH264) ∧
      get_surfaces demoH264 (List.replicate 10 (image 0 none))
        = .ok ((List.range 10).map fun i => some (demoSurface i), demoH264Used) ∧
      config mplayerImgFmt ⟨0, none⟩ (demoRepliesAt 8192) mplayerImgFmt.IMGFMT_VAAPI_MPEG2
        demoH264Used = (0, demoReconfigured) ∧
      demoReconfigured.dm = 0 ∧
      demoReconfigured.va_num_surfaces = 6 ∧
      demoReconfigured.va_free_surfaces_head_index = 10 ∧
      ¬ demoReconfigured.va_free_surfaces_head_index < demoReconfigured.va_num_surfaces ∧
      get_surface demoReconfigured ⟨0, 0⟩ ⟨0, none, 0⟩ = .undefined := by
  decide

/-! ## Failed configuration -/

/-- C19, as stated, fails: on the unconfigured module `config_vaapi` (and with it
`config`) returns -1 when `vaCreateContext` fails, and leaves the surface array and the
free-slot array it has just built. -/
theorem config_vaapi_context_failure_keeps_pool :
    (demoStart 0).va_surface_ids = none ∧ (demoStart 0).va_free_surfaces = none ∧
      (config_vaapi mplayerImgFmt demoContextFails mplayerImgFmt.IMGFMT_VAAPI_MPEG2
        (demoStart 0)).1 = -1 ∧
      (config_vaapi mplayerImgFmt demoContextFails mplayerImgFmt.IMGFMT_VAAPI_MPEG2
        (demoStart 0)).2.va_surface_ids ≠ none ∧
      (config_vaapi mplayerImgFmt demoContextFails mplayerImgFmt.IMGFMT_VAAPI_MPEG2
        (demoStart 0)).2.va_free_surfaces ≠ none ∧
      (config mplayerImgFmt ⟨0, none⟩ demoContextFails mplayerImgFmt.IMGFMT_VAAPI_MPEG2
        (demoStart 0)).1 = -1 ∧
      (config mplayerImgFmt ⟨0, none⟩ demoContextFails mplayerImgFmt.IMGFMT_VAAPI_MPEG2
        (demoStart 0)).2.va_surface_ids ≠ none ∧
      (config mplayerImgFmt ⟨0, none⟩ demoContextFails mplayerImgFmt.IMGFMT_VAAPI_MPEG2
        (demoStart 0)).2.va_free_surfaces ≠ none := by
  decide

theorem config_vaapi_surfaces_result (r : ConfigReplies) (t : VaState) :
    ((config_vaapi_surfaces r t).1 = 0 ∨ (config_vaapi_surfaces r t).1 = -1) ∧
      (r.calloc_surface_ids = none →
        (config_vaapi_surfaces r t).2.va_surface_ids = none ∧
        (config_vaapi_surfaces r t).2.va_free_surfaces = t.va_free_surfaces) ∧
      (r.calloc_surface_ids ≠ none →
        (config_vaapi_surfaces r t).2.va_surface_ids ≠ none) := by
  unfold config_vaapi_surfaces
  split
  · rename_i hb
    simp [hb]
  · rename_i base hb
    simp only
    split_ifs <;> simp [hb]

theorem config_vaapi_sizing_result (K : ImgFmt) (r : ConfigReplies) (format : Nat)
    (t : VaState) :
    ((config_vaapi_sizing K r format t).1 = 0 ∨ (config_vaapi_sizing K r format t).1 = -1) ∧
      (num_video_surfaces K format = 0 ∨ r.calloc_surface_ids = none →
        t.va_surface_ids = none →
        (config_vaapi_sizing K r format t).2.va_surface_ids = none ∧
        (config_vaapi_sizing K r format t).2.va_free_surfaces = t.va_free_surfaces) ∧
      (num_video_surfaces K format ≠ 0 → r.calloc_surface_ids ≠ none →
        (config_vaapi_sizing K r format t).2.va_surface_ids ≠ none) := by
  unfold config_vaapi_sizing
  simp only
  split
  · rename_i hn
    replace hn : num_video_surfaces K format = 0 := hn
    refine ⟨Or.inr rfl, fun _ hids => ⟨hids, rfl⟩, fun h => absurd hn h⟩
  · rename_i hn
    replace hn : ¬ num_video_surfaces K format = 0 := hn
    generalize hds : is_direct_mapping _ r.vaGetDisplayAttributes = ds
    have hfr := is_direct_mapping_frame
      { t with va_num_surfaces := num_video_surfaces K format } r.vaGetDisplayAttributes
    rw [hds] at hfr
    obtain ⟨h1, h2, h3⟩ := config_vaapi_surfaces_result r
      { ds.2 with va_num_surfaces :=
          if ds.1 = 0 then FFMIN (2 * ds.2.va_num_surfaces) MAX_VIDEO_SURFACES
          else ds.2.va_num_surfaces }
    refine ⟨h1, ?_, fun _ hb => h3 hb⟩
    intro hearly _
    rcases hearly with h | h
    · exact absurd h hn
    · obtain ⟨e1, e2⟩ := h2 h
      refine ⟨e1, e2.trans ?_⟩
      show ds.2.va_free_surfaces = _
      rw [hfr]

/-- Function `VAEntrypoint_from_imgfmt` returns the value of `VAEntrypointVLD` exactly
when the format has an entry point and `has_entrypoint` returns that value for it. -/
theorem VAEntrypoint_from_imgfmt_eq_VLD (K : ImgFmt) (s : VaState) (format : Nat) :
    VAEntrypoint_from_imgfmt K s format = VAEntrypointVLD ↔
      entrypoint_of_imgfmt K format ≠ 0 ∧
      has_entrypoint s.va_entrypoints s.va_num_entrypoints (entrypoint_of_imgfmt K format)
        = VAEntrypointVLD := by
  unfold VAEntrypoint_from_imgfmt
  simp only
  split_ifs with h
  · simp [h]
  · simp [h, VAEntrypointVLD]

/-- The steps of `config_vaapi` before the sizing step all pass exactly when none of
their failure conditions holds; `config_vaapi` then continues with the sizing step. -/
theorem config_vaapi_passes_checks {K : ImgFmt} {r : ConfigReplies} {format : Nat}
    {s : VaState}
    (h1 : ¬ VAProfile_from_imgfmt K s format < 0) (h2 : r.calloc_entrypoints ≠ false)
    (h3 : check_status r.vaQueryConfigEntrypoints_status ≠ false)
    (h4 : ¬ has_entrypoint (some r.vaQueryConfigEntrypoints_list)
      r.vaQueryConfigEntrypoints_num (entrypoint_of_imgfmt K format) ≠ VAEntrypointVLD)
    (h5 : entrypoint_of_imgfmt K format ≠ 0)
    (h6 : check_status r.vaGetConfigAttributes_status ≠ false)
    (h7 : ¬ r.vaGetConfigAttributes_value &&& VA_RT_FORMAT_YUV420 = 0)
    (h8 : check_status r.vaCreateConfig_status ≠ false) :
    config_vaapi K r format s
      = config_vaapi_sizing K r format { s with
          va_entrypoints := some r.vaQueryConfigEntrypoints_list,
          va_num_entrypoints := r.vaQueryConfigEntrypoints_num,
          va_config_id := r.vaCreateConfig_id } := by
  have h4a : VAEntrypoint_from_imgfmt K { s with
      va_entrypoints := some r.vaQueryConfigEntrypoints_list,
      va_num_entrypoints := r.vaQueryConfigEntrypoints_num } format = VAEntrypointVLD :=
    (VAEntrypoint_from_imgfmt_eq_VLD K _ format).mpr ⟨h5, not_not.mp h4⟩
  unfold config_vaapi
  simp only [h1, h4a, h7, if_false, ne_eq, not_true_eq_false]
  simp [h2, h3, h6, h8]

/-- When one of the steps of `config_vaapi` before the sizing step fails, the call
returns -1 and leaves the surface array and the free-slot array as they were. -/
theorem config_vaapi_fails_checks {K : ImgFmt} {r : ConfigReplies} {format : Nat}
    {s : VaState}
    (h : VAProfile_from_imgfmt K s format < 0 ∨ r.calloc_entrypoints = false ∨
      check_status r.vaQueryConfigEntrypoints_status = false ∨
      has_entrypoint (some r.vaQueryConfigEntrypoints_list) r.vaQueryConfigEntrypoints_num
        (entrypoint_of_imgfmt K format) ≠ VAEntrypointVLD ∨
      entrypoint_of_imgfmt K format = 0 ∨
      check_status r.vaGetConfigAttributes_status = false ∨
      r.vaGetConfigAttributes_value &&& VA_RT_FORMAT_YUV420 = 0 ∨
      check_status r.vaCreateConfig_status = false) :
    (config_vaapi K r format s).1 = -1 ∧
      (config_vaapi K r format s).2.va_surface_ids = s.va_surface_ids ∧
      (config_vaapi K r format s).2.va_free_surfaces = s.va_free_surfaces := by
  have hent := VAEntrypoint_from_imgfmt_eq_VLD K { s with
    va_entrypoints := some r.vaQueryConfigEntrypoints_list,
    va_num_entrypoints := r.vaQueryConfigEntrypoints_num } format
  unfold config_vaapi
  simp only
  split_ifs with c1 c2 c3 c4 c5 c6 c7
  all_goals try exact ⟨rfl, rfl, rfl⟩
  exfalso
  have hv := hent.mp (not_not.mp c4)
  rcases h with e | e | e | e | e | e | e | e
  · exact c1 e
  · simp [e] at c2
  · simp [e] at c3
  · exact e hv.2
  · exact hv.1 e
  · simp [e] at c5
  · exact c6 e
  · simp [e] at c7

/-- What the last part of `config_vaapi` leaves, whether it succeeds or fails, once the
surface array is allocated: the surface array; no new free-slot array when
`vaCreateSurfaces` or the allocation of the free-slot array fails; the free-slot array
built when both succeed. -/
theorem config_vaapi_surfaces_late {r : ConfigReplies} (t : VaState) {base : Nat}
    (hb : r.calloc_surface_ids = some base) :
    (config_vaapi_surfaces r t).2.va_num_surfaces = t.va_num_surfaces ∧
      (config_vaapi_surfaces r t).2.va_surface_ids
        = some ⟨base, (List.range t.va_num_surfaces).map r.vaCreateSurfaces_id⟩ ∧
      (check_status r.vaCreateSurfaces_status = false →
        (config_vaapi_surfaces r t).2.va_free_surfaces = t.va_free_surfaces) ∧
      (check_status r.vaCreateSurfaces_status = true → r.calloc_free_surfaces = false →
        (config_vaapi_surfaces r t).2.va_free_surfaces = none) ∧
      (check_status r.vaCreateSurfaces_status = true → r.calloc_free_surfaces = true →
        (config_vaapi_surfaces r t).2.va_free_surfaces
          = some ((List.range t.va_num_surfaces).map fun i => some (SurfPtr.mk base i))) := by
  unfold config_vaapi_surfaces
  simp only [hb]
  split_ifs <;> simp_all

/-- The same from the sizing step on, for a codec family with a surface count. -/
theorem config_vaapi_sizing_late {K : ImgFmt} {r : ConfigReplies} {format : Nat}
    (t : VaState) {base : Nat} (hn : num_video_surfaces K format ≠ 0)
    (hb : r.calloc_surface_ids = some base) :
    (config_vaapi_sizing K r format t).2.va_surface_ids
        = some ⟨base, (List.range (config_vaapi_sizing K r format t).2.va_num_surfaces).map
            r.vaCreateSurfaces_id⟩ ∧
      (check_status r.vaCreateSurfaces_status = false →
        (config_vaapi_sizing K r format t).2.va_free_surfaces = t.va_free_surfaces) ∧
      (check_status r.vaCreateSurfaces_status = true → r.calloc_free_surfaces = false →
        (config_vaapi_sizing K r format t).2.va_free_surfaces = none) ∧
      (check_status r.vaCreateSurfaces_status = true → r.calloc_free_surfaces = true →
        (config_vaapi_sizing K r format t).2.va_free_surfaces
          = some ((List.range (config_vaapi_sizing K r format t).2.va_num_surfaces).map
              fun i => some (SurfPtr.mk base i))) := by
  unfold config_vaapi_sizing
  simp only
  rw [if_neg (by exact hn)]
  generalize hds : is_direct_mapping _ r.vaGetDisplayAttributes = ds
  have hfr := is_direct_mapping_frame
    { t with va_num_surfaces := num_video_surfaces K format } r.vaGetDisplayAttributes
  rw [hds] at hfr
  obtain ⟨e0, e1, e2, e3, e4⟩ := config_vaapi_surfaces_late (r := r)
    { ds.2 with va_num_surfaces :=
        if ds.1 = 0 then FFMIN (2 * ds.2.va_num_surfaces) MAX_VIDEO_SURFACES
        else ds.2.va_num_surfaces } hb
  rw [e0]
  refine ⟨e1, ?_, e3, e4⟩
  intro hcs
  rw [e2 hcs]
  show ds.2.va_free_surfaces = _
  rw [hfr]

/-- C19, amended. Entered with no surface array and no free queue (the state in which
`config` calls it, after `free_video_specific`), a failing `config_vaapi` returns -1.
When it fails at a step up to and including the allocation of the surface array, the
pool afterwards holds no surface array and no free queue. When it fails at a later step,
the surface array allocated stays in place; the free-slot array is absent when
`vaCreateSurfaces` or its own allocation fails, and stays in place, as built, when the
failure comes later (GLX surface or decode context). In every case
`free_video_specific`, which every `config` call runs first, leaves neither. -/
theorem config_vaapi_failure (K : ImgFmt) (r : ConfigReplies) (format : Nat) (s : VaState)
    (hids : s.va_surface_ids = none) (hfree : s.va_free_surfaces = none)
    (hfail : (config_vaapi K r format s).1 ≠ 0) :
    (config_vaapi K r format s).1 = -1 ∧
      (fails_before_surfaces K r format s →
        (config_vaapi K r format s).2.va_surface_ids = none ∧
        (config_vaapi K r format s).2.va_free_surfaces = none) ∧
      (¬ fails_before_surfaces K r format s →
        ∃ base, r.calloc_surface_ids = some base ∧
          (config_vaapi K r format s).2.va_surface_ids
            = some ⟨base, (List.range (config_vaapi K r format s).2.va_num_surfaces).map
                r.vaCreateSurfaces_id⟩ ∧
          (check_status r.vaCreateSurfaces_status = false ∨ r.calloc_free_surfaces = false →
            (config_vaapi K r format s).2.va_free_surfaces = none) ∧
          (check_status r.vaCreateSurfaces_status = true → r.calloc_free_surfaces = true →
            (config_vaapi K r format s).2.va_free_surfaces
              = some ((List.range (config_vaapi K r format s).2.va_num_surfaces).map
                  fun i => some (SurfPtr.mk base i)))) ∧
      (free_video_specific (config_vaapi K r format s).2).va_surface_ids = none ∧
      (free_video_specific (config_vaapi K r format s).2).va_free_surfaces = none := by
  by_cases hchk : VAProfile_from_imgfmt K s format < 0 ∨ r.calloc_entrypoints = false ∨
      check_status r.vaQueryConfigEntrypoints_status = false ∨
      has_entrypoint (some r.vaQueryConfigEntrypoints_list) r.vaQueryConfigEntrypoints_num
        (entrypoint_of_imgfmt K format) ≠ VAEntrypointVLD ∨
      entrypoint_of_imgfmt K format = 0 ∨
      check_status r.vaGetConfigAttributes_status = false ∨
      r.vaGetConfigAttributes_value &&& VA_RT_FORMAT_YUV420 = 0 ∨
      check_status r.vaCreateConfig_status = false
  · obtain ⟨e1, e2, e3⟩ := config_vaapi_fails_checks hchk
    refine ⟨e1, fun _ => ⟨e2.trans hids, e3.trans hfree⟩, ?_, rfl, rfl⟩
    intro hn
    exfalso
    apply hn
    unfold fails_before_surfaces
    rcases hchk with e | e | e | e | e | e | e | e <;> simp [e]
  · simp only [not_or] at hchk
    obtain ⟨n1, n2, n3, n4, n5, n6, n7, n8⟩ := hchk
    have hpass := config_vaapi_passes_checks n1 n2 n3 n4 n5 n6 n7 n8
    obtain ⟨k1, k2, -⟩ := config_vaapi_sizing_result K r format { s with
      va_entrypoints := some r.vaQueryConfigEntrypoints_list,
      va_num_entrypoints := r.vaQueryConfigEntrypoints_num,
      va_config_id := r.vaCreateConfig_id }
    rw [hpass] at hfail ⊢
    refine ⟨k1.resolve_left hfail, ?_, ?_, rfl, rfl⟩
    · intro hearly
      have hor : num_video_surfaces K format = 0 ∨ r.calloc_surface_ids = none := by
        unfold fails_before_surfaces at hearly
        rcases hearly with e | e | e | e | e | e | e | e | e | e
        · exact absurd e n1
        · exact absurd e n2
        · exact absurd e n3
        · exact absurd e n4
        · exact absurd e n5
        · exact absurd e n6
        · exact absurd e n7
        · exact absurd e n8
        · exact Or.inl e
        · exact Or.inr e
      obtain ⟨e1, e2⟩ := k2 hor hids
      exact ⟨e1, e2.trans hfree⟩
    · intro hn
      unfold fails_before_surfaces at hn
      simp only [not_or] at hn
      obtain ⟨base, hb⟩ := Option.ne_none_iff_exists'.mp hn.2.2.2.2.2.2.2.2.2
      obtain ⟨l1, l2, l3, l4⟩ := config_vaapi_sizing_late (K := K) (r := r)
        { s with
          va_entrypoints := some r.vaQueryConfigEntrypoints_list,
          va_num_entrypoints := r.vaQueryConfigEntrypoints_num,
          va_config_id := r.vaCreateConfig_id } hn.2.2.2.2.2.2.2.2.1 hb
      refine ⟨base, hb, l1, ?_, l4⟩
      rintro (hcs | hcf)
      · exact (l2 hcs).trans hfree
      · cases hcs : check_status r.vaCreateSurfaces_status with
        | false => exact (l2 hcs).trans hfree
        | true => exact l3 hcs hcf

/-- Witness of C19, amended: on the unconfigured module a configuration for a format
whose profile the driver lacks fails before any allocation; one in which
`vaCreateSurfaces` fails keeps the surface array and has no free-slot array; one in
which `vaCreateContext` fails keeps the surface array and the free-slot array built. -/
theorem config_vaapi_failure_witness :
    (demoStart 0).va_surface_ids = none ∧ (demoStart 0).va_free_surfaces = none ∧
      ((config_vaapi mplayerImgFmt (demoReplies 1) mplayerImgFmt.IMGFMT_VAAPI_MPEG4
          (demoStart 0)).1 ≠ 0 ∧
        fails_before_surfaces mplayerImgFmt (demoReplies 1) mplayerImgFmt.IMGFMT_VAAPI_MPEG4
          (demoStart 0) ∧
        (config_vaapi mplayerImgFmt (demoReplies 1) mplayerImgFmt.IMGFMT_VAAPI_MPEG4
          (demoStart 0)).2.va_surface_ids = none ∧
        (config_vaapi mplayerImgFmt (demoReplies 1) mplayerImgFmt.IMGFMT_VAAPI_MPEG4
          (demoStart 0)).2.va_free_surfaces = none) ∧
      ((config_vaapi mplayerImgFmt demoSurfacesFail mplayerImgFmt.IMGFMT_VAAPI_MPEG2
          (demoStart 0)).1 ≠ 0 ∧
        ¬ fails_before_surfaces mplayerImgFmt demoSurfacesFail
          mplayerImgFmt.IMGFMT_VAAPI_MPEG2 (demoStart 0) ∧
        check_status demoSurfacesFail.vaCreateSurfaces_status = false ∧
        (config_vaapi mplayerImgFmt demoSurfacesFail mplayerImgFmt.IMGFMT_VAAPI_MPEG2
          (demoStart 0)).2.va_surface_ids
          = some ⟨4096, [100, 101, 102, 103, 104, 105]⟩ ∧
        (config_vaapi mplayerImgFmt demoSurfacesFail mplayerImgFmt.IMGFMT_VAAPI_MPEG2
          (demoStart 0)).2.va_free_surfaces = none) ∧
      ((config_vaapi mplayerImgFmt demoContextFails mplayerImgFmt.IMGFMT_VAAPI_MPEG2
          (demoStart 0)).1 ≠ 0 ∧
        ¬ fails_before_surfaces mplayerImgFmt demoContextFails
          mplayerImgFmt.IMGFMT_VAAPI_MPEG2 (demoStart 0) ∧
        check_status demoContextFails.vaCreateSurfaces_status = true ∧
        demoContextFails.calloc_free_surfaces = true ∧
        (config_vaapi mplayerImgFmt demoContextFails mplayerImgFmt.IMGFMT_VAAPI_MPEG2
          (demoStart 0)).2.va_surface_ids
          = some ⟨4096, [100, 101, 102, 103, 104, 105]⟩ ∧
        (config_vaapi mplayerImgFmt demoContextFails mplayerImgFmt.IMGFMT_VAAPI_MPEG2
          (demoStart 0)).2.va_free_surfaces
          = some ((List.range 6).map fun i => some (demoSurface i))) := by
  refine ⟨rfl, rfl, ⟨by decide, by decide, ?_⟩, ⟨by decide, by decide, by decide, ?_⟩,
    ⟨by decide, by decide, by decide, by decide, ?_⟩⟩
  · exact (config_vaapi_failure mplayerImgFmt (demoReplies 1)
      mplayerImgFmt.IMGFMT_VAAPI_MPEG4 (demoStart 0) rfl rfl (by decide)).2.1 (by decide)
  · obtain ⟨base, hb, hids, hnone, -⟩ := (config_vaapi_failure mplayerImgFmt
      demoSurfacesFail mplayerImgFmt.IMGFMT_VAAPI_MPEG2 (demoStart 0) rfl rfl
      (by decide)).2.2.1 (by decide)
    have hbase : base = 4096 := (Option.some.inj hb).symm
    subst hbase
    exact ⟨hids.trans (by decide), hnone (Or.inl (by decide))⟩
  · obtain ⟨base, hb, hids, -, hbuilt⟩ := (config_vaapi_failure mplayerImgFmt
      demoContextFails mplayerImgFmt.IMGFMT_VAAPI_MPEG2 (demoStart 0) rfl rfl
      (by decide)).2.2.1 (by decide)
    have hbase : base = 4096 := (Option.some.inj hb).symm
    subst hbase
    exact ⟨hids.trans (by decide), (hbuilt (by decide) (by decide)).trans (by decide)⟩

/-! ## The shape of the free queue -/

/-- In a ring holding `q` the occupied slots are the cyclic index range from the head
index up to but excluding the tail index, and both indices are below the slot count. -/
theorem ringShape_cyclic_range {s : VaState} {q : List SurfPtr} (hq : RingShape s q) :
    ∃ arr, s.va_free_surfaces = some arr ∧ arr.length = s.va_num_surfaces ∧
      s.va_free_surfaces_head_index < s.va_num_surfaces ∧
      s.va_free_surfaces_tail_index < s.va_num_surfaces ∧
      ∀ i, i < s.va_num_surfaces →
        (slot_occupied arr i ↔
          in_cyclic_range s.va_free_surfaces_head_index s.va_free_surfaces_tail_index
            (slot_occupied arr s.va_free_surfaces_head_index) i) := by
  obtain ⟨arr, ha, hlen, hk, hh, ht, hslots⟩ := hq
  have hN : 0 < s.va_num_surfaces := by omega
  -- the slot at distance `j` from the head index is occupied exactly when `j < q.length`
  have hdist : ∀ j, j < s.va_num_surfaces →
      (slot_occupied arr ((s.va_free_surfaces_head_index + j) % s.va_num_surfaces)
        ↔ j < q.length) := by
    intro j hj
    unfold slot_occupied
    rw [hslots j hj]
    constructor
    · rintro ⟨p, hp⟩
      by_contra hge
      rw [List.getElem?_eq_none (by omega)] at hp
      cases hp
    · intro hlt
      exact ⟨q[j], by rw [List.getElem?_eq_getElem hlt]⟩
  -- every index is at some distance below the slot count from the head index
  have hocc : ∀ i, i < s.va_num_surfaces →
      (slot_occupied arr i ↔
        (s.va_free_surfaces_head_index ≤ i ∧ i - s.va_free_surfaces_head_index < q.length) ∨
        (i < s.va_free_surfaces_head_index ∧
          i + s.va_num_surfaces - s.va_free_surfaces_head_index < q.length)) := by
    intro i hi
    by_cases hle : s.va_free_surfaces_head_index ≤ i
    · have e : (s.va_free_surfaces_head_index + (i - s.va_free_surfaces_head_index))
          % s.va_num_surfaces = i := by
        rw [Nat.add_sub_cancel' hle, Nat.mod_eq_of_lt hi]
      have := hdist (i - s.va_free_surfaces_head_index) (by omega)
      rw [e] at this
      rw [this]
      constructor
      · intro h; exact Or.inl ⟨hle, h⟩
      · rintro (h | h)
        · exact h.2
        · omega
    · have e : (s.va_free_surfaces_head_index
          + (i + s.va_num_surfaces - s.va_free_surfaces_head_index)) % s.va_num_surfaces
          = i := by
        have : s.va_free_surfaces_head_index
            + (i + s.va_num_surfaces - s.va_free_surfaces_head_index)
            = i + s.va_num_surfaces := by omega
        rw [this, Nat.add_mod_right, Nat.mod_eq_of_lt hi]
      have := hdist (i + s.va_num_surfaces - s.va_free_surfaces_head_index) (by omega)
      rw [e] at this
      rw [this]
      constructor
      · intro h; exact Or.inr ⟨by omega, h⟩
      · rintro (h | h)
        · omega
        · exact h.2
  -- the tail index without the remainder
  have htail : (s.va_free_surfaces_head_index + q.length < s.va_num_surfaces ∧
        s.va_free_surfaces_tail_index = s.va_free_surfaces_head_index + q.length) ∨
      (s.va_num_surfaces ≤ s.va_free_surfaces_head_index + q.length ∧
        s.va_free_surfaces_tail_index
          = s.va_free_surfaces_head_index + q.length - s.va_num_surfaces) := by
    by_cases hlt : s.va_free_surfaces_head_index + q.length < s.va_num_surfaces
    · exact Or.inl ⟨hlt, by rw [ht, Nat.mod_eq_of_lt hlt]⟩
    · refine Or.inr ⟨by omega, ?_⟩
      rw [ht, Nat.mod_eq_sub_mod (by omega), Nat.mod_eq_of_lt (by omega)]
  have hheadocc := hocc s.va_free_surfaces_head_index hh
  refine ⟨arr, ha, hlen, hh, ?_, ?_⟩
  · rcases htail with ⟨h1, h2⟩ | ⟨h1, h2⟩ <;> omega
  · intro i hi
    rw [hocc i hi]
    unfold in_cyclic_range
    rw [hheadocc]
    rcases htail with ⟨h1, h2⟩ | ⟨h1, h2⟩ <;> omega

/-- C20. In every state reached from a first indirect configuration (queue indices 0) by
returning `get_surface` calls, the free-slot array has `va_num_surfaces` slots, both
queue indices are below that count, and the occupied slots are exactly the cyclic index
range from the head index up to but excluding the tail index: all slots when the indices
are equal and the head slot is occupied, none when they are equal and it is empty. -/
theorem free_queue_ring_shape (K : ImgFmt) (r : ConfigReplies) (format : Nat)
    (s0 s s1 : VaState) (calls : List (AttrReply × mp_image_t))
    (rs : List (Option SurfPtr))
    (hcfg : config_vaapi K r format s0 = (0, s)) (hind : s.dm = 0)
    (hhead : s0.va_free_surfaces_head_index = 0)
    (htail : s0.va_free_surfaces_tail_index = 0)
    (hrun : get_surfaces s calls = .ok (rs, s1)) :
    s1.va_num_surfaces = s.va_num_surfaces ∧
      ∃ arr, s1.va_free_surfaces = some arr ∧ arr.length = s1.va_num_surfaces ∧
        s1.va_free_surfaces_head_index < s1.va_num_surfaces ∧
        s1.va_free_surfaces_tail_index < s1.va_num_surfaces ∧
        ∀ i, i < s1.va_num_surfaces →
          (slot_occupied arr i ↔
            in_cyclic_range s1.va_free_surfaces_head_index s1.va_free_surfaces_tail_index
              (slot_occupied arr s1.va_free_surfaces_head_index) i) := by
  obtain ⟨hs, rem, -, -, -, hrem, -, hn⟩ :=
    get_surfaces_ring_ok calls hind (ringShape_of_config hcfg hhead htail) hrun
  exact ⟨hn, ringShape_cyclic_range hrem⟩

/-- Witness of C20: on the fresh demonstration pool two surfaces are taken and a third
call gives surface 0 back; the queue then occupies the slots 3, 4, 5 and 0, from the head
index 3 round to the tail index 1. -/
theorem free_queue_ring_shape_witness :
    config_vaapi mplayerImgFmt (demoReplies 1) mplayerImgFmt.IMGFMT_VAAPI_MPEG2
        (demoStart 0) = (0, demoIndirect) ∧
      demoIndirect.dm = 0 ∧
      get_surfaces demoIndirect [image 0 none, image 1 none, image 0 (some (demoSurface 0))]
        = .ok ([some (demoSurface 0), some (demoSurface 1), some (demoSurface 2)],
            demoWrapped) ∧
      demoWrapped.va_free_surfaces_head_index = 3 ∧
      demoWrapped.va_free_surfaces_tail_index = 1 ∧
      ∃ arr, demoWrapped.va_free_surfaces = some arr ∧
        arr.length = demoWrapped.va_num_surfaces ∧
        demoWrapped.va_free_surfaces_head_index < demoWrapped.va_num_surfaces ∧
        demoWrapped.va_free_surfaces_tail_index < demoWrapped.va_num_surfaces ∧
        ∀ i, i < demoWrapped.va_num_surfaces →
          (slot_occupied arr i ↔
            in_cyclic_range demoWrapped.va_free_surfaces_head_index
              demoWrapped.va_free_surfaces_tail_index
              (slot_occupied arr demoWrapped.va_free_surfaces_head_index) i) :=
  ⟨by decide, by decide, by decide, rfl, rfl,
    (free_queue_ring_shape mplayerImgFmt (demoReplies 1) mplayerImgFmt.IMGFMT_VAAPI_MPEG2
      (demoStart 0) demoIndirect demoWrapped
      [image 0 none, image 1 none, image 0 (some (demoSurface 0))]
      [some (demoSurface 0), some (demoSurface 1), some (demoSurface 2)]
      (by decide) (by decide) (by decide) (by decide) (by decide)).2⟩

/-! ## Profile and entry point of a format -/

theorem has_profile_ne_zero_iff (s : VaState) (p : Int) :
    has_profile s p ≠ 0 ↔ p ∈ supported_profiles s := by
  unfold has_profile supported_profiles
  split
  · simp
  · split_ifs <;> simp_all

theorem has_entrypoint_eq_one_iff (entrypoints : Option (List Int)) (num e : Int) :
    has_entrypoint entrypoints num e = 1 ↔ e ∈ listed_entrypoints entrypoints num := by
  unfold has_entrypoint listed_entrypoints
  split
  · simp
  · split_ifs <;> simp_all

/-- No entry of a preference list is negative. -/
theorem profiles_of_imgfmt_nonneg {K : ImgFmt} {format : Nat} {l : List Int}
    (h : profiles_of_imgfmt K format = some l) : ∀ p ∈ l, 0 ≤ p := by
  unfold profiles_of_imgfmt at h
  split_ifs at h <;> cases h <;> decide

/-- C21. Function `VAProfile_from_imgfmt` returns the first profile of the format's
preference list that the driver supports: the result is -1 or an entry of the preference
list that is in the driver's profile list while no entry before it is; and it is -1
exactly when the format has no preference list or the driver supports none of its
entries. The preference lists are: MPEG2 Main, Simple for the MPEG2 family; MPEG4 Main,
Advanced Simple, Simple for the MPEG4 family; H264 High, Main, Baseline for the H264
family; in the VC1 family VC1 Main, Simple for WMV3 and VC1 Advanced for VC1; none
otherwise. -/
theorem VAProfile_from_imgfmt_first_supported (K : ImgFmt) (s : VaState) (format : Nat) :
    (VAProfile_from_imgfmt K s format = -1 ∨
        ∃ l pre post, profiles_of_imgfmt K format = some l ∧
          l = pre ++ VAProfile_from_imgfmt K s format :: post ∧
          VAProfile_from_imgfmt K s format ∈ supported_profiles s ∧
          ∀ q ∈ pre, q ∉ supported_profiles s) ∧
      (VAProfile_from_imgfmt K s format = -1 ↔
        profiles_of_imgfmt K format = none ∨
        ∃ l, profiles_of_imgfmt K format = some l ∧ ∀ q ∈ l, q ∉ supported_profiles s) ∧
      (K.IMGFMT_VAAPI_CODEC format = K.IMGFMT_VAAPI_CODEC_MPEG2 →
        profiles_of_imgfmt K format = some [VAProfileMPEG2Main, VAProfileMPEG2Simple]) ∧
      (K.CodecLabelsDistinct →
        (K.IMGFMT_VAAPI_CODEC format = K.IMGFMT_VAAPI_CODEC_MPEG4 →
          profiles_of_imgfmt K format
            = some [VAProfileMPEG4Main, VAProfileMPEG4AdvancedSimple,
                VAProfileMPEG4Simple]) ∧
        (K.IMGFMT_VAAPI_CODEC format = K.IMGFMT_VAAPI_CODEC_H264 →
          profiles_of_imgfmt K format
            = some [VAProfileH264High, VAProfileH264Main, VAProfileH264Baseline]) ∧
        (K.IMGFMT_VAAPI_CODEC format = K.IMGFMT_VAAPI_CODEC_VC1 →
          (format = K.IMGFMT_VAAPI_WMV3 →
            profiles_of_imgfmt K format = some [VAProfileVC1Main, VAProfileVC1Simple]) ∧
          (format ≠ K.IMGFMT_VAAPI_WMV3 → format = K.IMGFMT_VAAPI_VC1 →
            profiles_of_imgfmt K format = some [VAProfileVC1Advanced]) ∧
          (format ≠ K.IMGFMT_VAAPI_WMV3 → format ≠ K.IMGFMT_VAAPI_VC1 →
            profiles_of_imgfmt K format = none)) ∧
        (K.IMGFMT_VAAPI_CODEC format ≠ K.IMGFMT_VAAPI_CODEC_MPEG2 →
          K.IMGFMT_VAAPI_CODEC format ≠ K.IMGFMT_VAAPI_CODEC_MPEG4 →
          K.IMGFMT_VAAPI_CODEC format ≠ K.IMGFMT_VAAPI_CODEC_H264 →
          K.IMGFMT_VAAPI_CODEC format ≠ K.IMGFMT_VAAPI_CODEC_VC1 →
          profiles_of_imgfmt K format = none)) := by
  have hmain : (VAProfile_from_imgfmt K s format = -1 ∨
        ∃ l pre post, profiles_of_imgfmt K format = some l ∧
          l = pre ++ VAProfile_from_imgfmt K s format :: post ∧
          VAProfile_from_imgfmt K s format ∈ supported_profiles s ∧
          ∀ q ∈ pre, q ∉ supported_profiles s) ∧
      (VAProfile_from_imgfmt K s format = -1 ↔
        profiles_of_imgfmt K format = none ∨
        ∃ l, profiles_of_imgfmt K format = some l ∧
          ∀ q ∈ l, q ∉ supported_profiles s) := by
    cases hl : profiles_of_imgfmt K format with
    | none =>
      have hres : VAProfile_from_imgfmt K s format = -1 := by
        simp [VAProfile_from_imgfmt, hl]
      exact ⟨Or.inl hres, by simp [hres]⟩
    | some l =>
      cases hf : l.find? (fun p => has_profile s p != 0) with
      | none =>
        have hres : VAProfile_from_imgfmt K s format = -1 := by
          simp only [VAProfile_from_imgfmt, hl, hf]
        refine ⟨Or.inl hres, ?_⟩
        rw [hres]
        simp only [true_iff]
        right
        refine ⟨l, rfl, ?_⟩
        intro q hq hs
        have := List.find?_eq_none.mp hf q hq
        have hne := (has_profile_ne_zero_iff s q).mpr hs
        simp [hne] at this
      | some p =>
        have hres : VAProfile_from_imgfmt K s format = p := by
          simp only [VAProfile_from_imgfmt, hl, hf]
        obtain ⟨hp, pre, post, e, hpre⟩ := List.find?_eq_some.mp hf
        have hmem : p ∈ l := by rw [e]; simp
        have hnn := profiles_of_imgfmt_nonneg hl p hmem
        have hsup : p ∈ supported_profiles s :=
          (has_profile_ne_zero_iff s p).mp (by simpa using hp)
        rw [hres]
        constructor
        · right
          refine ⟨l, pre, post, rfl, e, hsup, ?_⟩
          intro q hq hs
          have := hpre q hq
          have hne := (has_profile_ne_zero_iff s q).mpr hs
          simp [hne] at this
        · constructor
          · intro h
            omega
          · rintro (h | ⟨l1, h1, h2⟩)
            · cases h
            · cases h1
              exact absurd hsup (h2 p hmem)
  refine ⟨hmain.1, hmain.2, ?_, ?_⟩
  · intro h
    simp [profiles_of_imgfmt, h, mpeg2_profiles]
  · rintro ⟨h12, h13, h14, h23, h24, h34⟩
    refine ⟨?_, ?_, ?_, ?_⟩
    · intro h
      simp [profiles_of_imgfmt, h, mpeg4_profiles, h12.symm]
    · intro h
      simp [profiles_of_imgfmt, h, h264_profiles, h13.symm, h23.symm]
    · intro h
      refine ⟨?_, ?_, ?_⟩
      · intro hw
        simp [profiles_of_imgfmt, h, wmv3_profiles, h14.symm, h24.symm, h34.symm, ← hw]
      · intro hw hv
        simp [profiles_of_imgfmt, h, vc1_profiles, h14.symm, h24.symm, h34.symm, hw, ← hv]
      · intro hw hv
        simp [profiles_of_imgfmt, h, h14.symm, h24.symm, h34.symm, hw, hv]
    · intro a b c d
      simp [profiles_of_imgfmt, a, b, c, d]

/-- Witness of C21: the driver of `demoProfiles` lists MPEG4 Simple before MPEG4 Advanced
Simple and H264 Baseline before H264 Main; the preference order decides, giving MPEG4
Advanced Simple and H264 Main; it has no MPEG2 profile, giving -1. -/
theorem VAProfile_from_imgfmt_first_supported_witness :
    VAProfile_from_imgfmt mplayerImgFmt demoProfiles mplayerImgFmt.IMGFMT_VAAPI_MPEG4
        = VAProfileMPEG4AdvancedSimple ∧
      VAProfile_from_imgfmt mplayerImgFmt demoProfiles mplayerImgFmt.IMGFMT_VAAPI_H264
        = VAProfileH264Main ∧
      VAProfile_from_imgfmt mplayerImgFmt demoProfiles mplayerImgFmt.IMGFMT_VAAPI_MPEG2
        = -1 ∧
      mplayerImgFmt.CodecLabelsDistinct ∧
      profiles_of_imgfmt mplayerImgFmt mplayerImgFmt.IMGFMT_VAAPI_MPEG4
        = some [VAProfileMPEG4Main, VAProfileMPEG4AdvancedSimple, VAProfileMPEG4Simple] ∧
      (VAProfile_from_imgfmt mplayerImgFmt demoProfiles mplayerImgFmt.IMGFMT_VAAPI_MPEG2
          = -1 ↔
        profiles_of_imgfmt mplayerImgFmt mplayerImgFmt.IMGFMT_VAAPI_MPEG2 = none ∨
        ∃ l, profiles_of_imgfmt mplayerImgFmt mplayerImgFmt.IMGFMT_VAAPI_MPEG2 = some l ∧
          ∀ q ∈ l, q ∉ supported_profiles demoProfiles) :=
  ⟨by decide, by decide, by decide, by decide,
    ((VAProfile_from_imgfmt_first_supported mplayerImgFmt demoProfiles
      mplayerImgFmt.IMGFMT_VAAPI_MPEG4).2.2.2 (by decide)).1 (by decide),
    (VAProfile_from_imgfmt_first_supported mplayerImgFmt demoProfiles
      mplayerImgFmt.IMGFMT_VAAPI_MPEG2).2.1⟩

/-- The entry-point check of `config_vaapi` lets a format pass exactly when the format
has an entry point and the driver lists that entry point, whichever it is. -/
theorem entrypoint_check_passes_iff (K : ImgFmt) (s : VaState) (format : Nat) :
    VAEntrypoint_from_imgfmt K s format = VAEntrypointVLD ↔
      entrypoint_of_imgfmt K format ≠ 0 ∧
      entrypoint_of_imgfmt K format
        ∈ listed_entrypoints s.va_entrypoints s.va_num_entrypoints := by
  rw [VAEntrypoint_from_imgfmt_eq_VLD, ← has_entrypoint_eq_one_iff]
  rfl

/-- For a format whose entry point is VLD the check passes exactly when the driver lists
VLD. -/
theorem entrypoint_check_VLD (K : ImgFmt) (s : VaState) (format : Nat)
    (h : entrypoint_of_imgfmt K format = VAEntrypointVLD) :
    VAEntrypoint_from_imgfmt K s format = VAEntrypointVLD ↔
      VAEntrypointVLD ∈ listed_entrypoints s.va_entrypoints s.va_num_entrypoints := by
  rw [entrypoint_check_passes_iff, h]
  simp [VAEntrypointVLD]

/-- C22 fails on the code. The entry point of the format `IMGFMT_VAAPI_MPEG2_IDCT` is
IDCT, not VLD. With a driver that lists IDCT only, `VAEntrypoint_from_imgfmt` returns
the 1 of `has_entrypoint`, which is the value of `VAEntrypointVLD`: the check passes and
`config_vaapi` returns 0 instead of -1. The same holds for `IMGFMT_VAAPI_MPEG2_MOCO`
with a driver that lists MoComp only. -/
theorem config_vaapi_accepts_idct :
    entrypoint_of_imgfmt mplayerImgFmt mplayerImgFmt.IMGFMT_VAAPI_MPEG2_IDCT
        = VAEntrypointIDCT ∧
      VAEntrypointIDCT ≠ VAEntrypointVLD ∧
      VAEntrypointVLD ∉ listed_entrypoints
        (some demoRepliesIDCT.vaQueryConfigEntrypoints_list)
        demoRepliesIDCT.vaQueryConfigEntrypoints_num ∧
      (config_vaapi mplayerImgFmt demoRepliesIDCT mplayerImgFmt.IMGFMT_VAAPI_MPEG2_IDCT
        (demoStart 0)).1 = 0 ∧
      VAEntrypoint_from_imgfmt mplayerImgFmt
        (config_vaapi mplayerImgFmt demoRepliesIDCT mplayerImgFmt.IMGFMT_VAAPI_MPEG2_IDCT
          (demoStart 0)).2 mplayerImgFmt.IMGFMT_VAAPI_MPEG2_IDCT = VAEntrypointVLD ∧
      entrypoint_of_imgfmt mplayerImgFmt mplayerImgFmt.IMGFMT_VAAPI_MPEG2_MOCO
        = VAEntrypointMoComp ∧
      (config_vaapi mplayerImgFmt demoRepliesMoComp mplayerImgFmt.IMGFMT_VAAPI_MPEG2_MOCO
        (demoStart 0)).1 = 0 := by
  decide

/-! ## The pool after a reconfiguration -/

end VoVaapi
